import Mathlib

/-!
Verification of the MD&A extraction core of `Annualreport_tools`.

Shallow embedding of the Python modules
`annual_report_mda/scorer.py`, `annual_report_mda/section_splitter.py`,
`annual_report_mda/strategies.py` and `annual_report_mda/llm/client.py`.
Texts are Lean `String`s (sequences of Unicode code points, as Python `str`).
Python `float` scores are modelled as exact rationals `ℚ`; the only float
operations the code performs on them are additions, multiplications and
comparisons of small decimal constants, which the rational model reflects
exactly (up to denormal float rounding that no claim depends on).
Machine integers are `Int`/`Nat` (Python ints are unbounded, so no wrap).
-/

set_option maxRecDepth 100000

namespace AnnualReportMda

/-! ### Python string primitives

Executable models of the Python `str` operations the embedded code uses:
`str.isspace`-based stripping, `str.splitlines`, `in` (substring test),
`str.count` (non-overlapping), `str.lower`, `str.split()`.
-/

/-- Python `str.isspace` character set (Unicode whitespace). -/
def pyIsSpace (c : Char) : Bool :=
  let n := c.toNat
  (0x09 ≤ n && n ≤ 0x0d) || n = 0x20 || (0x1c ≤ n && n ≤ 0x1f) ||
  n = 0x85 || n = 0xa0 || n = 0x1680 || (0x2000 ≤ n && n ≤ 0x200a) ||
  n = 0x2028 || n = 0x2029 || n = 0x202f || n = 0x205f || n = 0x3000

/-- Line-boundary characters of Python `str.splitlines`
(`\n`, `\r`, `\v`, `\f`, `\x1c`, `\x1d`, `\x1e`, `\x85`, ` `, ` `). -/
def isLineBreak (c : Char) : Bool :=
  let n := c.toNat
  n = 0x0a || n = 0x0d || n = 0x0b || n = 0x0c ||
  n = 0x1c || n = 0x1d || n = 0x1e || n = 0x85 || n = 0x2028 || n = 0x2029

/-- Worker for `pySplitlines`; `acc` is the current line, reversed. -/
def splitlinesList : List Char → List Char → List (List Char)
  | [], acc => if acc.isEmpty then [] else [acc.reverse]
  | c :: rest, acc =>
    if c.toNat = 0x0d then
      match rest with
      | c' :: rest' =>
        if c'.toNat = 0x0a then acc.reverse :: splitlinesList rest' []
        else acc.reverse :: splitlinesList (c' :: rest') []
      | [] => [acc.reverse]
    else if isLineBreak c then acc.reverse :: splitlinesList rest []
    else splitlinesList rest (c :: acc)

/-- Python `str.splitlines()`: split at line boundaries (`\r\n` counts once),
with no trailing empty line. -/
def pySplitlines (s : String) : List String :=
  (splitlinesList s.data []).map String.mk

/-- Python `str.lstrip()` on a character list. -/
def lstripList (p : Char → Bool) (l : List Char) : List Char := l.dropWhile p

/-- Python `str.rstrip()` on a character list. -/
def rstripList (p : Char → Bool) (l : List Char) : List Char :=
  (l.reverse.dropWhile p).reverse

/-- Python `str.strip()` on a character list. -/
def stripList (p : Char → Bool) (l : List Char) : List Char :=
  rstripList p (lstripList p l)

/-- Python `s.strip()` (strips `str.isspace` characters from both ends). -/
def pyStrip (s : String) : String := String.mk (stripList pyIsSpace s.data)

/-- Python `s.rstrip()`. -/
def pyRstrip (s : String) : String := String.mk (rstripList pyIsSpace s.data)

/-- Python `s.strip(chars)` for a single-character `chars` argument. -/
def pyStripChar (c : Char) (s : String) : String :=
  String.mk (stripList (fun x => x = c) s.data)

/-- Python substring test `needle in hay` on character lists. -/
def containsList : List Char → List Char → Bool
  | hay, needle =>
    if needle.isPrefixOf hay then true
    else
      match hay with
      | [] => false
      | _ :: t => containsList t needle

/-- Python substring test `needle in hay`. -/
def pyContains (hay needle : String) : Bool := containsList hay.data needle.data

/-- Worker for `pyCount`: non-overlapping occurrence count, `skip` chars of the
current match still to be consumed. -/
def countSubAux (needle : List Char) : List Char → Nat → Nat
  | [], _ => 0
  | c :: t, skip =>
    if 0 < skip then countSubAux needle t (skip - 1)
    else if needle.isPrefixOf (c :: t) then 1 + countSubAux needle t (needle.length - 1)
    else countSubAux needle t 0

/-- Python `hay.count(needle)`: non-overlapping occurrences, scanning left to
right (the needles used by the code are all nonempty). -/
def pyCount (hay needle : String) : Nat :=
  if needle.data.isEmpty then hay.length + 1
  else countSubAux needle.data hay.data 0

/-- Number of maximal runs of `'.'` of length ≥ 4: the value of
`len(re.findall(r"\.{4,}", text))`, since each greedy match consumes a whole
maximal dot run. `run` is the length of the current run. -/
def dotRunsAux : List Char → Nat → Nat
  | [], run => if 4 ≤ run then 1 else 0
  | c :: t, run =>
    if c = '.' then dotRunsAux t (run + 1)
    else (if 4 ≤ run then 1 else 0) + dotRunsAux t 0

/-- `len(re.findall(r"\.{4,}", text))`. -/
def dotRuns (s : String) : Nat := dotRunsAux s.data 0

/-- Python `str.lower()` (all strings it is applied to here are ASCII). -/
def pyLower (s : String) : String := String.mk (s.data.map Char.toLower)

/-- Python `"".join(text.split())`: `str.split()` with no argument drops all
whitespace runs, so the join removes every whitespace character. -/
def removeWhitespace (s : String) : String :=
  String.mk (s.data.filter (fun c => !pyIsSpace c))

/-- Keep the first occurrence of every element, preserving order (the key
iteration order of a Python `dict` built by repeated insertion). -/
def dedupFirst : List String → List String
  | [] => []
  | x :: t => x :: (dedupFirst (t.filter (fun y => y ≠ x)))
termination_by l => l.length
decreasing_by
  simp only [List.length_cons]
  exact Nat.lt_succ_of_le (List.length_filter_le _ _)

/-- Occurrence count of `x` in `l`. -/
def countOcc (l : List String) (x : String) : Nat :=
  (l.filter (fun y => y = x)).length

/-! ### `scorer.py`: heuristic MD&A score -/

/-- `DEFAULT_KEYWORDS` from `scorer.py`. -/
def DEFAULT_KEYWORDS : List String :=
  ["主营业务", "收入", "同比", "毛利率", "现金流", "行业", "展望"]

/-- `ScoreDetail` dataclass from `scorer.py`. -/
structure ScoreDetail where
  keyword_hit_count : Nat
  keyword_total : Nat
  dots_count : Nat
  length : Nat
deriving DecidableEq, Repr

/-- `text.count("...") + text.count("…") + text.count("……") +
len(re.findall(r"\.{4,}", text))` from `calculate_mda_score`. -/
def dotsCountOf (text : String) : Nat :=
  pyCount text "..." + pyCount text "…" + pyCount text "……" + dotRuns text

/-- `sum(1 for k in keywords_list if k and k in text)` from `calculate_mda_score`. -/
def keywordHitCount (text : String) (keywords_list : List String) : Nat :=
  (keywords_list.filter (fun k => k ≠ "" && pyContains text k)).length

/-- `max(len(keywords_list), 1)` from `calculate_mda_score`. -/
def keywordTotal (keywords_list : List String) : Nat := max keywords_list.length 1

/-- `calculate_mda_score(text, keywords=...)` from `scorer.py`.
`keywords = none` models the Python default `None`. -/
def calculate_mda_score (text : String) (keywords : Option (List String) := none) :
    ℚ × ScoreDetail :=
  if text = "" then
    (0, ⟨0, 0, 0, 0⟩)
  else
    let length := text.length
    if length < 500 then
      (0, ⟨0, 0, 0, length⟩)
    else
      let keywords_list := keywords.getD DEFAULT_KEYWORDS
      let keyword_hit_count := keywordHitCount text keywords_list
      let keyword_total := keywordTotal keywords_list
      let dots_count := dotsCountOf text
      let score : ℚ := ((keyword_hit_count : ℚ) / (keyword_total : ℚ)) * (8/10)
      let score := if dots_count < 10 then score + 2/10 else score
      let score := if score < 0 then 0 else score
      let score := if score > 1 then 1 else score
      (score, ⟨keyword_hit_count, keyword_total, dots_count, length⟩)

/-! ### `scorer.py`: negative-feature detection -/

/-- One character of `_TABLE_LINE_RE = ^[\d\s.,\-%+]+$` (`\d` modelled as the
ASCII digits that appear in these reports). -/
def tableLineChar (c : Char) : Bool :=
  c.isDigit || pyIsSpace c || c = '.' || c = ',' || c = '-' || c = '%' || c = '+'

/-- `detect_table_residue(text)`: `(is_detected, max_consecutive_count)`;
detected when ≥ 3 consecutive stripped non-blank lines are all
digits/whitespace/`.,-%+`. The accumulator is
`(max_consecutive, current_consecutive)`. -/
def detect_table_residue (text : String) : Bool × Nat :=
  if text = "" then (false, 0)
  else
    let r := (pySplitlines text).foldl
      (fun (acc : Nat × Nat) line =>
        let stripped := pyStrip line
        if stripped = "" then (acc.1, 0)
        else if stripped.data.all tableLineChar then
          (max acc.1 (acc.2 + 1), acc.2 + 1)
        else (acc.1, 0))
      (0, 0)
    (3 ≤ r.1, r.1)

/-- `detect_header_noise(text)`: `(is_detected, repeated_lines)`; a stripped
non-blank line of length < 50 occurring more than 3 times is header noise.
`dedupFirst` reproduces the first-insertion iteration order of the Python
counting dict. -/
def detect_header_noise (text : String) : Bool × List String :=
  if text = "" then (false, [])
  else
    let shorts := ((pySplitlines text).map pyStrip).filter
      (fun s => s ≠ "" && s.length < 50)
    let repeated := (dedupFirst shorts).filter (fun s => 3 < countOcc shorts s)
    (repeated ≠ [], repeated)

/-- Membership in the `_VALID_CHARS_RE` character class of `scorer.py`:
CJK `一-鿿`, ASCII letters and digits, `\s` (modelled by `pyIsSpace`),
the listed CJK punctuation (note: the adjacent string literals on the
"中文标点" line contribute ASCII apostrophes, not curly quotes), the listed
ASCII punctuation, and the special symbols. -/
def validChar (c : Char) : Bool :=
  let n := c.toNat
  (0x4e00 ≤ n && n ≤ 0x9fff) ||
  c.isAlpha || c.isDigit || pyIsSpace c ||
  n = 0x3002 || n = 0xff0c || n = 0x3001 || n = 0xff1b || n = 0xff1a ||
  n = 0xff1f || n = 0xff01 || n = 0x27 ||
  n = 0x3010 || n = 0x3011 || n = 0xff08 || n = 0xff09 || n = 0x300a || n = 0x300b ||
  c = '.' || c = ',' || c = ';' || c = ':' || c = '?' || c = '!' || n = 0x22 ||
  c = '(' || c = ')' || c = '[' || c = ']' || n = 0x7b || n = 0x7d ||
  c = '<' || c = '>' || c = '-' || c = '+' || c = '=' || c = '%' || c = '$' ||
  c = '#' || c = '@' || c = '&' || c = '*' || c = '/' || c = '_' || c = '~' ||
  n = 0x60

/-- `calculate_garbled_ratio(text)`: fraction of characters outside the
allow-list (exact rational model of the float quotient). -/
def calculate_garbled_ratio (text : String) : ℚ :=
  if text = "" then 0
  else
    let valid_count := (text.data.filter validChar).length
    let total := text.length
    if total = 0 then 0
    else 1 - (valid_count : ℚ) / (total : ℚ)

/-- `NegativeFeatures` dataclass from `scorer.py`. -/
structure NegativeFeatures where
  table_residue_score : Int
  header_noise_score : Int
  garbled_ratio : ℚ
  garbled_penalty : Int
  table_residue_lines : Nat
  repeated_headers : List String
deriving DecidableEq, Repr

/-- `detect_negative_features(text)` from `scorer.py`
(`_GARBLED_RATIO_THRESHOLD = 0.05` modelled as the exact rational `1/20`). -/
def detect_negative_features (text : String) : NegativeFeatures :=
  if text = "" then ⟨0, 0, 0, 0, 0, []⟩
  else
    let table := detect_table_residue text
    let table_score : Int := if table.1 then 15 else 0
    let header := detect_header_noise text
    let header_score : Int := if header.1 then 10 else 0
    let garbled_ratio := calculate_garbled_ratio text
    let garbled_penalty : Int := if garbled_ratio > 1/20 then 20 else 0
    ⟨table_score, header_score, garbled_ratio, garbled_penalty, table.2, header.2⟩

/-! ### `scorer.py`: combined quality score -/

/-- `_FLAG_PENALTIES` from `scorer.py` (lookup by flag name). -/
def flagPenalty (flag : String) : Option Int :=
  if flag = "FLAG_LENGTH_ABNORMAL" then some 10
  else if flag = "FLAG_CONTENT_MISMATCH" then some 15
  else if flag = "FLAG_TAIL_OVERLAP" then some 10
  else if flag = "FLAG_PAGE_BOUNDARY_MISSING" then some 5
  else if flag = "FLAG_TOC_MISMATCH" then some 10
  else if flag = "FLAG_EXTRACT_FAILED" then some 100
  else if flag = "FLAG_YOY_CHANGE_HIGH" then some 5
  else none

/-- Python dict assignment `d[k] = v` on an insertion-ordered association
list: replaces the value at an existing key in place, else appends. -/
def dictSet : List (String × Int) → String → Int → List (String × Int)
  | [], k, v => [(k, v)]
  | (k', v') :: t, k, v =>
    if k' = k then (k', v) :: t else (k', v') :: dictSet t k v

/-- `sum(penalties.values())`. -/
def valuesSum (l : List (String × Int)) : Int := (l.map Prod.snd).sum

/-- The body of the `for flag in quality_flags` loop of
`calculate_quality_score`: `penalties[flag.lower()] = _FLAG_PENALTIES[flag]`
for known flags. -/
def flagFoldStep (acc : List (String × Int)) (flag : String) : List (String × Int) :=
  match flagPenalty flag with
  | some v => dictSet acc (pyLower flag) v
  | none => acc

/-- `QualityScore` dataclass from `scorer.py`. -/
structure QualityScore where
  score : Int
  needs_review : Bool
  penalties : List (String × Int)
deriving DecidableEq, Repr

/-- The `penalties` dict built by the non-empty-text branch of
`calculate_quality_score`: flag penalties keyed by lowercased name, then the
dots-excess penalty, then the three negative-feature penalties. -/
def qualityPenaltiesDict (text : String) (quality_flags : Option (List String))
    (score_detail : Option ScoreDetail) : List (String × Int) :=
  let p1 : List (String × Int) :=
    match quality_flags with
    | none => []
    | some flags => flags.foldl flagFoldStep []
  let p2 :=
    match score_detail with
    | some sd => if 10 ≤ sd.dots_count then dictSet p1 "dots_excess" 20 else p1
    | none => p1
  let neg := detect_negative_features text
  let p3 := if 0 < neg.table_residue_score then dictSet p2 "table_residue" neg.table_residue_score else p2
  let p4 := if 0 < neg.header_noise_score then dictSet p3 "header_noise" neg.header_noise_score else p3
  if 0 < neg.garbled_penalty then dictSet p4 "garbled_text" neg.garbled_penalty else p4

/-- `calculate_quality_score(text, quality_flags, score_detail)` from
`scorer.py` (`NEEDS_REVIEW_THRESHOLD = 60`, `_DOTS_EXCESS_THRESHOLD = 10`).
`quality_flags = none` models Python `None`; `some []` and `none` take the
same branch, as the Python `if quality_flags:` is falsy for both. -/
def calculate_quality_score (text : String) (quality_flags : Option (List String))
    (score_detail : Option ScoreDetail) : QualityScore :=
  if text = "" then ⟨0, true, [("empty_text", 100)]⟩
  else
    let base : Int := 100
    let penalties := qualityPenaltiesDict text quality_flags score_detail
    let total_penalty := valuesSum penalties
    let final_score := max 0 (base - total_penalty)
    ⟨final_score, decide (final_score < 60), penalties⟩

/-! ### Claims C1 and C2: scorer properties -/

/-- `_FLAG_PENALTIES` looked up by the lowercased key, as stored in the
`penalties` dict. -/
def lowerPenalty (k : String) : Option Int :=
  if k = "flag_length_abnormal" then some 10
  else if k = "flag_content_mismatch" then some 15
  else if k = "flag_tail_overlap" then some 10
  else if k = "flag_page_boundary_missing" then some 5
  else if k = "flag_toc_mismatch" then some 10
  else if k = "flag_extract_failed" then some 100
  else if k = "flag_yoy_change_high" then some 5
  else none

lemma flagPenalty_lower {f : String} {v : Int} (h : flagPenalty f = some v) :
    lowerPenalty (pyLower f) = some v := by
  unfold flagPenalty at h
  split_ifs at h with h1 h2 h3 h4 h5 h6 h7
  all_goals first
    | exact Option.noConfusion h
    | (injection h with h'; subst h'; subst_vars; decide)

/-- Nominal penalty contribution of the known quality flags: one fixed
penalty per known flag name (`seen` holds the lowercased keys already
counted). -/
def knownFlagSum : List String → List String → Int
  | [], _ => 0
  | f :: rest, seen =>
    match flagPenalty f with
    | some v =>
      if pyLower f ∈ seen then knownFlagSum rest seen
      else v + knownFlagSum rest (pyLower f :: seen)
    | none => knownFlagSum rest seen

/-- The nominal penalty sum described by the specification: a fixed penalty
per known flag name, plus the dots-excess penalty, plus the three
negative-feature penalties. -/
def claimPenaltySum (text : String) (quality_flags : Option (List String))
    (score_detail : Option ScoreDetail) : Int :=
  knownFlagSum (quality_flags.getD []) []
  + (match score_detail with
     | some sd => if 10 ≤ sd.dots_count then (20 : Int) else 0
     | none => 0)
  + (detect_negative_features text).table_residue_score
  + (detect_negative_features text).header_noise_score
  + (detect_negative_features text).garbled_penalty

lemma dictSet_of_not_mem {l : List (String × Int)} {k : String} (v : Int)
    (h : k ∉ l.map Prod.fst) : dictSet l k v = l ++ [(k, v)] := by
  induction l with
  | nil => rfl
  | cons p t ih =>
    obtain ⟨k', v'⟩ := p
    simp only [List.map_cons, List.mem_cons] at h
    push_neg at h
    simp only [dictSet, if_neg (Ne.symm h.1), List.cons_append, ih h.2]

lemma dictSet_of_wf_mem {l : List (String × Int)} {k : String} {v : Int}
    (hwf : ∀ p ∈ l, lowerPenalty p.1 = some p.2)
    (hv : lowerPenalty k = some v)
    (hmem : k ∈ l.map Prod.fst) : dictSet l k v = l := by
  induction l with
  | nil => simp at hmem
  | cons p t ih =>
    obtain ⟨k', v'⟩ := p
    by_cases hk : k' = k
    · subst hk
      have := hwf (k', v') (by simp)
      simp only at this
      rw [this] at hv
      cases hv
      simp [dictSet]
    · simp only [List.map_cons, List.mem_cons] at hmem
      rcases hmem with h | h
      · exact absurd h.symm hk
      · simp only [dictSet, if_neg hk]
        rw [ih (fun p hp => hwf p (List.mem_cons_of_mem _ hp)) h]

lemma wf_dictSet {l : List (String × Int)} {k : String} {v : Int}
    (hwf : ∀ p ∈ l, lowerPenalty p.1 = some p.2)
    (hv : lowerPenalty k = some v) :
    ∀ p ∈ dictSet l k v, lowerPenalty p.1 = some p.2 := by
  induction l with
  | nil => intro p hp; simp only [dictSet, List.mem_singleton] at hp; subst hp; exact hv
  | cons q t ih =>
    obtain ⟨k', v'⟩ := q
    intro p hp
    simp only [dictSet] at hp
    by_cases hk : k' = k
    · rw [if_pos hk] at hp
      rcases List.mem_cons.mp hp with hp | hp
      · subst hp; subst hk; exact hv
      · exact hwf p (List.mem_cons_of_mem _ hp)
    · rw [if_neg hk] at hp
      rcases List.mem_cons.mp hp with hp | hp
      · subst hp; exact hwf _ (List.mem_cons_self _ _)
      · exact ih (fun q hq => hwf q (List.mem_cons_of_mem _ hq)) p hp

lemma wf_flagFold (flags : List String) :
    ∀ acc, (∀ p ∈ acc, lowerPenalty p.1 = some p.2) →
    ∀ p ∈ flags.foldl flagFoldStep acc, lowerPenalty p.1 = some p.2 := by
  induction flags with
  | nil => intro acc hacc; simpa using hacc
  | cons f rest ih =>
    intro acc hacc
    simp only [List.foldl_cons]
    apply ih
    unfold flagFoldStep
    cases hfp : flagPenalty f with
    | none => exact hacc
    | some v => exact wf_dictSet hacc (flagPenalty_lower hfp)

lemma valuesSum_append (l : List (String × Int)) (k : String) (v : Int) :
    valuesSum (l ++ [(k, v)]) = valuesSum l + v := by
  simp [valuesSum]

lemma flagFold_valuesSum (flags : List String) :
    ∀ (acc : List (String × Int)) (seen : List String),
    (∀ p ∈ acc, lowerPenalty p.1 = some p.2) →
    (∀ k, k ∈ seen ↔ k ∈ acc.map Prod.fst) →
    valuesSum (flags.foldl flagFoldStep acc) = valuesSum acc + knownFlagSum flags seen := by
  induction flags with
  | nil => intro acc seen _ _; simp [knownFlagSum]
  | cons f rest ih =>
    intro acc seen hwf hseen
    simp only [List.foldl_cons, knownFlagSum]
    cases hfp : flagPenalty f with
    | none =>
      simp only [flagFoldStep, hfp]
      exact ih acc seen hwf hseen
    | some v =>
      simp only [flagFoldStep, hfp]
      by_cases hmem : pyLower f ∈ acc.map Prod.fst
      · rw [dictSet_of_wf_mem hwf (flagPenalty_lower hfp) hmem,
          if_pos ((hseen _).mpr hmem)]
        exact ih acc seen hwf hseen
      · rw [dictSet_of_not_mem v hmem, if_neg (fun hk => hmem ((hseen _).mp hk))]
        rw [ih (acc ++ [(pyLower f, v)]) (pyLower f :: seen)
          (by
            intro p hp
            rcases List.mem_append.mp hp with h | h
            · exact hwf p h
            · simp only [List.mem_singleton] at h; subst h
              exact flagPenalty_lower hfp)
          (by
            intro k
            simp only [List.mem_cons, hseen k, List.map_append, List.mem_append,
              List.map_cons, List.map_nil, List.mem_singleton]
            tauto)]
        rw [valuesSum_append]
        ring

lemma mem_keys_dictSet {l : List (String × Int)} {k k' : String} {v : Int}
    (h : k' ∈ (dictSet l k v).map Prod.fst) :
    k' ∈ l.map Prod.fst ∨ k' = k := by
  induction l with
  | nil =>
    right
    simpa [dictSet] using h
  | cons q t ih =>
    obtain ⟨k0, v0⟩ := q
    by_cases hk : k0 = k
    · subst hk
      left
      simpa [dictSet] using h
    · simp only [dictSet, if_neg hk, List.map_cons, List.mem_cons] at h ⊢
      rcases h with rfl | h
      · exact Or.inl (Or.inl rfl)
      · rcases ih h with h | h
        · exact Or.inl (Or.inr h)
        · exact Or.inr h

lemma fresh_of_wf {l : List (String × Int)}
    (hwf : ∀ p ∈ l, lowerPenalty p.1 = some p.2) {k : String}
    (hk : lowerPenalty k = none) : k ∉ l.map Prod.fst := by
  intro hmem
  obtain ⟨p, hp, hfst⟩ := List.mem_map.mp hmem
  have := hwf p hp
  rw [hfst] at this
  rw [this] at hk
  cases hk

lemma fresh_dictSet {l : List (String × Int)} {k k' : String} {v : Int}
    (h1 : k ∉ l.map Prod.fst) (h2 : k ≠ k') :
    k ∉ (dictSet l k' v).map Prod.fst := by
  intro hm
  rcases mem_keys_dictSet hm with h | h
  · exact h1 h
  · exact h2 h

lemma stageSum {l : List (String × Int)} {k : String} (hfresh : k ∉ l.map Prod.fst)
    (b : Prop) [Decidable b] (v : Int) :
    valuesSum (if b then dictSet l k v else l) = valuesSum l + (if b then v else 0) := by
  split_ifs with hb
  · rw [dictSet_of_not_mem v hfresh, valuesSum_append]
  · ring

lemma stageKeys {l : List (String × Int)} {k k' : String}
    (b : Prop) [Decidable b] (v : Int)
    (h : k' ∈ (if b then dictSet l k v else l).map Prod.fst) :
    k' ∈ l.map Prod.fst ∨ k' = k := by
  split_ifs at h
  · exact mem_keys_dictSet h
  · exact Or.inl h

lemma neg_table_nonneg (text : String) :
    0 ≤ (detect_negative_features text).table_residue_score := by
  simp only [detect_negative_features]
  split_ifs <;> simp

lemma neg_header_nonneg (text : String) :
    0 ≤ (detect_negative_features text).header_noise_score := by
  simp only [detect_negative_features]
  split_ifs <;> simp

lemma neg_garbled_nonneg (text : String) :
    0 ≤ (detect_negative_features text).garbled_penalty := by
  simp only [detect_negative_features]
  split_ifs <;> simp

/-- The sum of the built `penalties` dict equals the nominal penalty sum of
the specification: each known flag name once, plus dots-excess, plus the
negative-feature penalties. -/
lemma qualityPenaltiesDict_sum (text : String) (flags : Option (List String))
    (sd : Option ScoreDetail) :
    valuesSum (qualityPenaltiesDict text flags sd) = claimPenaltySum text flags sd := by
  simp only [qualityPenaltiesDict, claimPenaltySum]
  -- stage 1: the flag-penalty dict
  generalize hP1 : (match flags with
      | none => ([] : List (String × Int))
      | some fl => fl.foldl flagFoldStep []) = P1
  have hwf1 : ∀ p ∈ P1, lowerPenalty p.1 = some p.2 := by
    rw [← hP1]
    cases flags with
    | none => simp
    | some fl => exact wf_flagFold fl [] (by simp)
  have hsum1 : valuesSum P1 = knownFlagSum (flags.getD []) [] := by
    rw [← hP1]
    cases flags with
    | none => simp [valuesSum, knownFlagSum]
    | some fl =>
      have h := flagFold_valuesSum fl [] [] (by simp) (by simp)
      simpa [valuesSum] using h
  clear hP1
  -- stage 2: dots_excess
  have hfresh2 : ("dots_excess" : String) ∉ P1.map Prod.fst :=
    fresh_of_wf hwf1 (by decide)
  generalize hP2 : (match sd with
      | some s => if 10 ≤ s.dots_count then dictSet P1 "dots_excess" 20 else P1
      | none => P1) = P2
  generalize hd2 : (match sd with
      | some s => if 10 ≤ s.dots_count then (20 : Int) else 0
      | none => 0) = d2
  have h2sum : valuesSum P2 = valuesSum P1 + d2 := by
    rw [← hP2, ← hd2]
    cases sd with
    | none => ring
    | some s => exact stageSum hfresh2 _ _
  have h2keys : ∀ k, k ∈ P2.map Prod.fst → k ∈ P1.map Prod.fst ∨ k = "dots_excess" := by
    rw [← hP2]
    cases sd with
    | none => exact fun k h => Or.inl h
    | some s => exact fun k h => stageKeys _ _ h
  clear hP2 hd2
  -- stage 3: table_residue
  have hfresh3 : ("table_residue" : String) ∉ P2.map Prod.fst := by
    intro h
    rcases h2keys _ h with h | h
    · exact fresh_of_wf hwf1 (by decide) h
    · exact absurd h (by decide)
  generalize hP3 : (if 0 < (detect_negative_features text).table_residue_score
      then dictSet P2 "table_residue" (detect_negative_features text).table_residue_score
      else P2) = P3
  have h3sum : valuesSum P3 = valuesSum P2 + (detect_negative_features text).table_residue_score := by
    rw [← hP3, stageSum hfresh3]
    have h := neg_table_nonneg text
    split_ifs with hb <;> omega
  have h3keys : ∀ k, k ∈ P3.map Prod.fst →
      (k ∈ P1.map Prod.fst ∨ k = "dots_excess") ∨ k = "table_residue" := by
    rw [← hP3]
    intro k h
    rcases stageKeys _ _ h with h | h
    · exact Or.inl (h2keys _ h)
    · exact Or.inr h
  clear hP3
  -- stage 4: header_noise
  have hfresh4 : ("header_noise" : String) ∉ P3.map Prod.fst := by
    intro h
    rcases h3keys _ h with (h | h) | h
    · exact fresh_of_wf hwf1 (by decide) h
    · exact absurd h (by decide)
    · exact absurd h (by decide)
  generalize hP4 : (if 0 < (detect_negative_features text).header_noise_score
      then dictSet P3 "header_noise" (detect_negative_features text).header_noise_score
      else P3) = P4
  have h4sum : valuesSum P4 = valuesSum P3 + (detect_negative_features text).header_noise_score := by
    rw [← hP4, stageSum hfresh4]
    have h := neg_header_nonneg text
    split_ifs with hb <;> omega
  have h4keys : ∀ k, k ∈ P4.map Prod.fst →
      ((k ∈ P1.map Prod.fst ∨ k = "dots_excess") ∨ k = "table_residue") ∨
        k = "header_noise" := by
    rw [← hP4]
    intro k h
    rcases stageKeys _ _ h with h | h
    · exact Or.inl (h3keys _ h)
    · exact Or.inr h
  clear hP4
  -- stage 5: garbled_text
  have hfresh5 : ("garbled_text" : String) ∉ P4.map Prod.fst := by
    intro h
    rcases h4keys _ h with ((h | h) | h) | h
    · exact fresh_of_wf hwf1 (by decide) h
    · exact absurd h (by decide)
    · exact absurd h (by decide)
    · exact absurd h (by decide)
  have h5sum : valuesSum (if 0 < (detect_negative_features text).garbled_penalty
        then dictSet P4 "garbled_text" (detect_negative_features text).garbled_penalty
        else P4)
      = valuesSum P4 + (detect_negative_features text).garbled_penalty := by
    rw [stageSum hfresh5]
    have h := neg_garbled_nonneg text
    split_ifs with hb <;> omega
  rw [h5sum, h4sum, h3sum, h2sum, hsum1]

/-- C1: for every text, flag list and score detail, `calculate_quality_score`
starts from 100, subtracts a fixed penalty per known flag name plus the
dots-excess and negative-feature penalties, floors the result at 0 (a nominal
penalty sum over 100 still yields exactly 0, never a negative score), and
sets `needs_review` to true iff the resulting score is below 60; empty text
yields score 0 with `needs_review` true regardless of the flags. -/
theorem calculate_quality_score_spec (text : String) (flags : Option (List String))
    (sd : Option ScoreDetail) :
    (text = "" → (calculate_quality_score text flags sd).score = 0 ∧
      (calculate_quality_score text flags sd).needs_review = true) ∧
    (text ≠ "" → (calculate_quality_score text flags sd).score
      = max 0 (100 - claimPenaltySum text flags sd)) ∧
    0 ≤ (calculate_quality_score text flags sd).score ∧
    (text ≠ "" → 100 < claimPenaltySum text flags sd →
      (calculate_quality_score text flags sd).score = 0) ∧
    ((calculate_quality_score text flags sd).needs_review = true ↔
      (calculate_quality_score text flags sd).score < 60) := by
  by_cases htext : text = ""
  · subst htext
    simp only [calculate_quality_score, if_pos rfl]
    exact ⟨fun _ => ⟨rfl, rfl⟩, fun h => absurd rfl h, by norm_num,
      fun h => absurd rfl h, by norm_num⟩
  · have hmain : calculate_quality_score text flags sd =
        ⟨max 0 (100 - claimPenaltySum text flags sd),
         decide (max 0 (100 - claimPenaltySum text flags sd) < 60),
         qualityPenaltiesDict text flags sd⟩ := by
      simp only [calculate_quality_score, if_neg htext, qualityPenaltiesDict_sum]
    rw [hmain]
    refine ⟨fun h => absurd h htext, fun _ => rfl, le_max_left _ _, fun _ h => ?_, ?_⟩
    · have hx : 100 - claimPenaltySum text flags sd ≤ 0 := by omega
      exact max_eq_left hx
    · simp [decide_eq_true_iff]

/-- Witness for C1: the text `"abc"` with flags `FLAG_EXTRACT_FAILED` and
`FLAG_CONTENT_MISMATCH` has nominal penalty 115 > 100 and score exactly 0;
the empty text scores 0 with `needs_review` true. -/
theorem calculate_quality_score_spec_witness :
    claimPenaltySum "abc" (some ["FLAG_EXTRACT_FAILED", "FLAG_CONTENT_MISMATCH"]) none
      = 115 ∧
    (calculate_quality_score "abc"
      (some ["FLAG_EXTRACT_FAILED", "FLAG_CONTENT_MISMATCH"]) none).score = 0 ∧
    (calculate_quality_score "" (some ["FLAG_EXTRACT_FAILED"]) none).score = 0 ∧
    (calculate_quality_score "" (some ["FLAG_EXTRACT_FAILED"]) none).needs_review = true := by
  refine ⟨by with_unfolding_all decide, ?_, ?_, ?_⟩
  · exact (calculate_quality_score_spec "abc"
      (some ["FLAG_EXTRACT_FAILED", "FLAG_CONTENT_MISMATCH"]) none).2.2.2.1
      (by decide) (by with_unfolding_all decide)
  · exact ((calculate_quality_score_spec "" (some ["FLAG_EXTRACT_FAILED"]) none).1 rfl).1
  · exact ((calculate_quality_score_spec "" (some ["FLAG_EXTRACT_FAILED"]) none).1 rfl).2

lemma keyword_ratio_nonneg (text : String) (kl : List String) :
    (0 : ℚ) ≤ (keywordHitCount text kl : ℚ) / (keywordTotal kl : ℚ) := by
  positivity

lemma keyword_ratio_le_one (text : String) (kl : List String) :
    (keywordHitCount text kl : ℚ) / (keywordTotal kl : ℚ) ≤ 1 := by
  have h1 : (0 : ℚ) < (keywordTotal kl : ℚ) := by
    have h : 1 ≤ keywordTotal kl := le_max_right _ _
    exact_mod_cast lt_of_lt_of_le zero_lt_one h
  rw [div_le_one h1]
  exact_mod_cast le_trans (List.length_filter_le _ _) (le_max_left _ _)

/-- C2: texts shorter than 500 characters score exactly 0 regardless of
keyword content; texts of at least 500 characters score
`0.8 · (keyword_hits / keyword_total)`, plus `0.2` exactly when the
dotted-leader count is below 10. -/
theorem calculate_mda_score_spec (text : String) (keywords : Option (List String)) :
    (text.length < 500 → (calculate_mda_score text keywords).1 = 0) ∧
    (500 ≤ text.length →
      (calculate_mda_score text keywords).1 =
        (keywordHitCount text (keywords.getD DEFAULT_KEYWORDS) : ℚ)
          / (keywordTotal (keywords.getD DEFAULT_KEYWORDS) : ℚ) * (8/10)
        + (if dotsCountOf text < 10 then (2/10 : ℚ) else 0)) := by
  constructor
  · intro h
    simp only [calculate_mda_score]
    by_cases he : text = ""
    · rw [if_pos he]
    · rw [if_neg he, if_pos h]
  · intro h
    have htext : text ≠ "" := by
      intro e
      rw [e] at h
      simp at h
    simp only [calculate_mda_score]
    rw [if_neg htext, if_neg (by omega : ¬ text.length < 500)]
    have h0 : (0 : ℚ) ≤ (keywordHitCount text (keywords.getD DEFAULT_KEYWORDS) : ℚ)
        / (keywordTotal (keywords.getD DEFAULT_KEYWORDS) : ℚ) :=
      keyword_ratio_nonneg _ _
    have h1 : (keywordHitCount text (keywords.getD DEFAULT_KEYWORDS) : ℚ)
        / (keywordTotal (keywords.getD DEFAULT_KEYWORDS) : ℚ) ≤ 1 :=
      keyword_ratio_le_one _ _
    by_cases hd : dotsCountOf text < 10
    · rw [if_pos hd, if_pos hd]
      have hA0 : ¬ ((keywordHitCount text (keywords.getD DEFAULT_KEYWORDS) : ℚ)
          / (keywordTotal (keywords.getD DEFAULT_KEYWORDS) : ℚ) * (8/10) + 2/10 < 0) := by
        intro hc
        linarith
      have hA1 : ¬ ((keywordHitCount text (keywords.getD DEFAULT_KEYWORDS) : ℚ)
          / (keywordTotal (keywords.getD DEFAULT_KEYWORDS) : ℚ) * (8/10) + 2/10 > 1) := by
        intro hc
        linarith
      rw [if_neg hA0, if_neg hA1]
    · rw [if_neg hd, if_neg hd]
      have hA0 : ¬ ((keywordHitCount text (keywords.getD DEFAULT_KEYWORDS) : ℚ)
          / (keywordTotal (keywords.getD DEFAULT_KEYWORDS) : ℚ) * (8/10) < 0) := by
        intro hc
        linarith
      have hA1 : ¬ ((keywordHitCount text (keywords.getD DEFAULT_KEYWORDS) : ℚ)
          / (keywordTotal (keywords.getD DEFAULT_KEYWORDS) : ℚ) * (8/10) > 1) := by
        intro hc
        linarith
      rw [if_neg hA0, if_neg hA1]
      ring

/-- Witness for C2: a 2-character text scores 0; a 500-character text of
`'a'`s (no keyword hits, no dotted leaders) scores exactly `0.2`. -/
theorem calculate_mda_score_spec_witness :
    ("ab".length < 500 ∧ (calculate_mda_score "ab" none).1 = 0) ∧
    (500 ≤ (String.mk (List.replicate 500 'a')).length ∧
      (calculate_mda_score (String.mk (List.replicate 500 'a')) none).1 = 1/5) := by
  constructor
  · exact ⟨by decide, (calculate_mda_score_spec "ab" none).1 (by decide)⟩
  · refine ⟨by decide, ?_⟩
    rw [(calculate_mda_score_spec (String.mk (List.replicate 500 'a')) none).2 (by decide)]
    with_unfolding_all decide

/-! ### `scorer.py`: L3 text similarity and year-over-year drift -/

/-- All 3-character windows of a character list. -/
def windows3Aux : List Char → List (List Char)
  | c1 :: c2 :: c3 :: rest => [c1, c2, c3] :: windows3Aux (c2 :: c3 :: rest)
  | _ => []

/-- All 3-character substrings (with multiplicity, in order). -/
def windows3 (s : String) : List String := (windows3Aux s.data).map String.mk

/-- `get_ngrams(text, 3)` from `calculate_text_similarity`: whitespace
removed; a cleaned string shorter than 3 characters is one whole-string gram
(`{cleaned}`) when nonempty and the empty set otherwise; longer strings give
the set of all 3-character windows. Python sets are modelled as deduplicated
lists. -/
def get_ngrams (text : String) : List String :=
  let cleaned := removeWhitespace text
  if cleaned.length < 3 then (if cleaned = "" then [] else [cleaned])
  else dedupFirst (windows3 cleaned)

/-- `len(A & B)` for deduplicated lists. -/
def interCount (a b : List String) : Nat := (a.filter (fun x => x ∈ b)).length

/-- `len(A | B)` for deduplicated lists. -/
def unionCount (a b : List String) : Nat :=
  a.length + (b.filter (fun x => x ∉ a)).length

/-- `calculate_text_similarity(text1, text2)` from `scorer.py`. -/
def calculate_text_similarity (text1 text2 : String) : ℚ :=
  if text1 = "" ∨ text2 = "" then 0
  else if text1 = text2 then 1
  else
    let ngrams1 := get_ngrams text1
    let ngrams2 := get_ngrams text2
    if ngrams1 = [] ∨ ngrams2 = [] then 0
    else
      let intersection := interCount ngrams1 ngrams2
      let union := unionCount ngrams1 ngrams2
      if union = 0 then 0
      else (intersection : ℚ) / (union : ℚ)

/-- `detect_yoy_change(current_text, prev_text, similarity_threshold=0.3)`
from `scorer.py` (`YOY_SIMILARITY_THRESHOLD = 0.3` as the exact rational
`3/10`). -/
def detect_yoy_change (current_text : String) (prev_text : Option String)
    (similarity_threshold : ℚ := 3/10) : Bool × ℚ :=
  match prev_text with
  | none => (false, 1)
  | some prev =>
    if current_text = "" ∨ prev = "" then (false, 0)
    else
      let similarity := calculate_text_similarity current_text prev
      (decide (similarity < similarity_threshold), similarity)

/-! ### Claim C8: similarity and year-over-year detector -/

/-- The gram set described by the specification sentence: any string whose
cleaned form is shorter than 3 characters contributes one whole-string gram
— including a string whose cleaned form is empty, which contributes the
empty gram. `get_ngrams` instead returns the empty set there. -/
def claimGrams (text : String) : List String :=
  let cleaned := removeWhitespace text
  if cleaned.length < 3 then [cleaned]
  else dedupFirst (windows3 cleaned)

/-- Jaccard index `|A∩B| / |A∪B|` of two deduplicated lists. -/
def jaccardQ (a b : List String) : ℚ :=
  (interCount a b : ℚ) / (unionCount a b : ℚ)

/-- Counterexample to C8 as stated: the whitespace-only strings `" "` and
`"\t"` are distinct and nonempty, so the claim prescribes the Jaccard index
of their whole-string gram sets — both `{""}` — which is 1; the code returns
0 because it drops the empty cleaned form instead of forming a gram. -/
theorem text_similarity_claim_counterexample :
    (" " : String) ≠ "\t" ∧ (" " : String) ≠ "" ∧ ("\t" : String) ≠ "" ∧
    jaccardQ (claimGrams " ") (claimGrams "\t") = 1 ∧
    calculate_text_similarity " " "\t" = 0 := by
  with_unfolding_all decide

lemma get_ngrams_eq_nil_iff (a : String) :
    get_ngrams a = [] ↔ removeWhitespace a = "" := by
  simp only [get_ngrams]
  by_cases hlen : (removeWhitespace a).length < 3
  · rw [if_pos hlen]
    by_cases he : removeWhitespace a = ""
    · rw [if_pos he]
      simp [he]
    · rw [if_neg he]
      simp [he]
  · rw [if_neg hlen]
    have hlen' : 3 ≤ (removeWhitespace a).data.length := Nat.not_lt.mp hlen
    constructor
    · intro h
      rcases hd : (removeWhitespace a).data with _ | ⟨c1, _ | ⟨c2, _ | ⟨c3, rest⟩⟩⟩
      · rw [hd] at hlen'; exact absurd hlen' (by simp)
      · rw [hd] at hlen'; exact absurd hlen' (by simp)
      · rw [hd] at hlen'; exact absurd hlen' (by simp)
      · rw [windows3, hd] at h
        simp [windows3Aux, dedupFirst] at h
    · intro h
      exfalso
      apply hlen
      rw [h]
      decide

/-- C8 (amended): the similarity is 1.0 for identical nonempty strings, 0.0
when either argument is empty, and otherwise the Jaccard index of the
whitespace-stripped 3-gram sets, where a nonempty cleaned form shorter than
3 characters is one whole-string gram and an empty cleaned form yields the
empty gram set (forcing similarity 0.0); the year-over-year detector returns
`(false, 1.0)` without a previous text, `(false, 0.0)` when either text is
empty, and otherwise flags abnormal exactly when similarity < 0.3. -/
theorem calculate_text_similarity_spec (a b : String) :
    (a = b → a ≠ "" → calculate_text_similarity a b = 1) ∧
    (a = "" ∨ b = "" → calculate_text_similarity a b = 0) ∧
    (a ≠ b → a ≠ "" → b ≠ "" →
      calculate_text_similarity a b =
        (if get_ngrams a = [] ∨ get_ngrams b = [] then 0
         else jaccardQ (get_ngrams a) (get_ngrams b))) ∧
    (detect_yoy_change a none).1 = false ∧
    (detect_yoy_change a none).2 = 1 ∧
    (∀ p, a = "" ∨ p = "" → detect_yoy_change a (some p) = (false, 0)) ∧
    (∀ p, a ≠ "" → p ≠ "" →
      detect_yoy_change a (some p)
        = (decide (calculate_text_similarity a p < 3/10),
           calculate_text_similarity a p)) := by
  refine ⟨?_, ?_, ?_, rfl, rfl, ?_, ?_⟩
  · intro hab ha
    subst hab
    unfold calculate_text_similarity
    rw [if_neg (by simp [ha]), if_pos rfl]
  · intro h
    unfold calculate_text_similarity
    rw [if_pos h]
  · intro hab ha hb
    unfold calculate_text_similarity
    rw [if_neg (by simp [ha, hb]), if_neg hab]
    by_cases hng : get_ngrams a = [] ∨ get_ngrams b = []
    · rw [if_pos hng, if_pos hng]
    · rw [if_neg hng, if_neg hng]
      push_neg at hng
      have hne : unionCount (get_ngrams a) (get_ngrams b) ≠ 0 := by
        unfold unionCount
        have : get_ngrams a ≠ [] := hng.1
        cases hga : get_ngrams a with
        | nil => exact absurd hga this
        | cons x t => simp
      rw [if_neg hne]
      rfl
  · intro p hp
    show (if a = "" ∨ p = "" then ((false, 0) : Bool × ℚ)
      else (decide (calculate_text_similarity a p < 3/10),
        calculate_text_similarity a p)) = (false, 0)
    rw [if_pos hp]
  · intro p ha hp
    show (if a = "" ∨ p = "" then ((false, 0) : Bool × ℚ)
      else (decide (calculate_text_similarity a p < 3/10),
        calculate_text_similarity a p))
      = (decide (calculate_text_similarity a p < 3/10), calculate_text_similarity a p)
    rw [if_neg (by simp [ha, hp])]

/-- Witness for C8 (amended) at concrete inputs. -/
theorem calculate_text_similarity_spec_witness :
    calculate_text_similarity "abcd" "abcd" = 1 ∧
    calculate_text_similarity "" "xy" = 0 ∧
    calculate_text_similarity "abcd" "bcde" = 1/3 ∧
    detect_yoy_change "abcd" (some "") = (false, 0) ∧
    detect_yoy_change "abcd" (some "bcde") = (false, 1/3) := by
  refine ⟨(calculate_text_similarity_spec "abcd" "abcd").1 rfl (by decide),
    (calculate_text_similarity_spec "" "xy").2.1 (Or.inl rfl), ?_, ?_, ?_⟩
  · rw [(calculate_text_similarity_spec "abcd" "bcde").2.2.1
      (by decide) (by decide) (by decide)]
    with_unfolding_all decide
  · exact (calculate_text_similarity_spec "abcd" "abcd").2.2.2.2.2.1 "" (Or.inr rfl)
  · rw [(calculate_text_similarity_spec "abcd" "bcde").2.2.2.2.2.2 "bcde"
      (by decide) (by decide)]
    have hs : calculate_text_similarity "abcd" "bcde" = 1/3 := by
      rw [(calculate_text_similarity_spec "abcd" "bcde").2.2.1
        (by decide) (by decide) (by decide)]
      with_unfolding_all decide
    rw [hs]
    with_unfolding_all decide

/-! ### A small regular-expression engine

Executable model (Brzozowski derivatives) of the Python `re` constructs used
by `section_splitter.py` and `strategies.py`: character classes, literals,
concatenation, alternation, option, star/plus. `re.IGNORECASE` on the
outlook patterns is a no-op, as they contain no cased letters. -/

inductive Rx where
  | emp : Rx
  | eps : Rx
  | cls : (Char → Bool) → Rx
  | cat : Rx → Rx → Rx
  | alt : Rx → Rx → Rx
  | star : Rx → Rx

/-- Does the regex accept the empty string? -/
def Rx.nullable : Rx → Bool
  | .emp => false
  | .eps => true
  | .cls _ => false
  | .cat a b => a.nullable && b.nullable
  | .alt a b => a.nullable || b.nullable
  | .star _ => true

/-- Simplifying concatenation (keeps derivatives small). -/
def Rx.mkCat : Rx → Rx → Rx
  | .emp, _ => .emp
  | _, .emp => .emp
  | .eps, b => b
  | a, .eps => a
  | a, b => .cat a b

/-- Simplifying alternation. -/
def Rx.mkAlt : Rx → Rx → Rx
  | .emp, b => b
  | a, .emp => a
  | a, b => .alt a b

/-- Brzozowski derivative by one character. -/
def Rx.deriv : Rx → Char → Rx
  | .emp, _ => .emp
  | .eps, _ => .emp
  | .cls p, c => if p c then .eps else .emp
  | .cat a b, c =>
    if a.nullable then .mkAlt (.mkCat (a.deriv c) b) (b.deriv c)
    else .mkCat (a.deriv c) b
  | .alt a b, c => .mkAlt (a.deriv c) (b.deriv c)
  | .star a, c => .mkCat (a.deriv c) (.star a)

/-- Whole-list match. -/
def Rx.matchList (r : Rx) (s : List Char) : Bool :=
  (s.foldl Rx.deriv r).nullable

/-- Does some prefix of the list match (semantics of `re.match`)? -/
def Rx.somePre : Rx → List Char → Bool
  | r, [] => r.nullable
  | r, c :: t => r.nullable || Rx.somePre (r.deriv c) t

/-- Does some substring match (semantics of `re.search`)? -/
def Rx.someSub : Rx → List Char → Bool
  | r, [] => r.nullable
  | r, c :: t => Rx.somePre r (c :: t) || Rx.someSub r t

/-- Does some suffix match entirely (semantics of `re.search` on an
`...$`-anchored pattern)? -/
def Rx.someSufAll : Rx → List Char → Bool
  | r, [] => r.nullable
  | r, c :: t => Rx.matchList r (c :: t) || Rx.someSufAll r t

/-- `re.search(pattern, s) is not None`. -/
def rxSearch (r : Rx) (s : String) : Bool := Rx.someSub r s.data

/-- `re.match(pattern, s) is not None`. -/
def rxMatchStart (r : Rx) (s : String) : Bool := Rx.somePre r s.data

/-- Literal string. -/
def Rx.strLit (s : String) : Rx :=
  s.data.foldr (fun c r => Rx.cat (.cls (fun x => x = c)) r) .eps

/-- Character class given by a character list. -/
def Rx.charsIn (l : List Char) : Rx := .cls (fun c => l.contains c)

/-- `(?:r)?`. -/
def Rx.opt (r : Rx) : Rx := .alt r .eps

/-- `r+`. -/
def Rx.plus (r : Rx) : Rx := .cat r (.star r)

/-- `(?:a|b|...)` over a list of branches. -/
def Rx.alts : List Rx → Rx
  | [] => .emp
  | [r] => r
  | r :: rest => .alt r (Rx.alts rest)

/-- Concatenation of a list of regexes. -/
def Rx.catList : List Rx → Rx
  | [] => .eps
  | [r] => r
  | r :: rest => .cat r (Rx.catList rest)

/-- `\s` of the Python `re` module (Unicode whitespace). -/
def rxSpace : Rx := .cls pyIsSpace

/-- `.` (any character but a newline; `re.DOTALL` is never set). -/
def rxDot : Rx := .cls (fun c => c ≠ '\n')

/-- `\d`, modelled as the ASCII digits that occur in these reports. -/
def rxDigit : Rx := .cls Char.isDigit

/-- Length `i + n` of the longest prefix of `s` matching `r`, where `i`
characters were already consumed; `none` if no prefix matches. -/
def longestPrefixLenAux (r : Rx) (s : List Char) (i : Nat) (best : Option Nat) :
    Option Nat :=
  let best' := if r.nullable then some i else best
  match s with
  | [] => best'
  | c :: t => longestPrefixLenAux (r.deriv c) t (i + 1) best'

/-- The text of the first match: leftmost start, then longest length there.
Python's backtracking is leftmost with pattern-priority length, which
coincides with leftmost-longest for the greedy patterns transcribed here;
only the diagnostic `split_keyword` field depends on this. `none` iff
`re.search` finds no match. -/
def rxMatchTextAux (r : Rx) (s : List Char) : Option (List Char) :=
  match longestPrefixLenAux r s 0 none with
  | some n => some (s.take n)
  | none =>
    match s with
    | [] => none
    | _ :: t => rxMatchTextAux r t

def rxMatchText (r : Rx) (s : String) : Option String :=
  (rxMatchTextAux r s.data).map String.mk

/-! ### `section_splitter.py`: review/outlook sub-splitting -/

/-- `[一二三四五六七八九十\d]`. -/
def rxCjkNum : Rx := .cls (fun c => "一二三四五六七八九十".data.contains c || c.isDigit)

/-- `第[一二三四五六七八九十\d]+[章节部分]\s*[：:]*\s*.*(?:未来|展望|发展战略)`. -/
def outlookPattern0 : Rx := Rx.catList
  [Rx.strLit "第", Rx.plus rxCjkNum, Rx.charsIn "章节部分".data,
   Rx.star rxSpace, Rx.star (Rx.charsIn "：:".data), Rx.star rxSpace,
   Rx.star rxDot,
   Rx.alts [Rx.strLit "未来", Rx.strLit "展望", Rx.strLit "发展战略"]]

/-- `[一二三四五六七八九十\d]+[、\.]\s*(?:公司)?(?:未来发展|发展展望|未来展望)`. -/
def outlookPattern1 : Rx := Rx.catList
  [Rx.plus rxCjkNum, Rx.charsIn "、.".data, Rx.star rxSpace,
   Rx.opt (Rx.strLit "公司"),
   Rx.alts [Rx.strLit "未来发展", Rx.strLit "发展展望", Rx.strLit "未来展望"]]

/-- `[（\(][一二三四五六七八九十\d]+[）\)]\s*(?:公司)?(?:未来发展|发展展望)`. -/
def outlookPattern2 : Rx := Rx.catList
  [Rx.charsIn "（(".data, Rx.plus rxCjkNum, Rx.charsIn "）)".data,
   Rx.star rxSpace, Rx.opt (Rx.strLit "公司"),
   Rx.alts [Rx.strLit "未来发展", Rx.strLit "发展展望"]]

/-- `(?:对公司)?未来发展(?:的)?(?:展望|战略)`. -/
def outlookPattern3 : Rx := Rx.catList
  [Rx.opt (Rx.strLit "对公司"), Rx.strLit "未来发展", Rx.opt (Rx.strLit "的"),
   Rx.alts [Rx.strLit "展望", Rx.strLit "战略"]]

/-- `公司(?:未来)?发展战略`. -/
def outlookPattern4 : Rx := Rx.catList
  [Rx.strLit "公司", Rx.opt (Rx.strLit "未来"), Rx.strLit "发展战略"]

/-- `(?:公司)?(?:未来|下一年度)(?:的)?经营计划`. -/
def outlookPattern5 : Rx := Rx.catList
  [Rx.opt (Rx.strLit "公司"),
   Rx.alts [Rx.strLit "未来", Rx.strLit "下一年度"],
   Rx.opt (Rx.strLit "的"), Rx.strLit "经营计划"]

/-- `未来(?:业务)?发展展望`. -/
def outlookPattern6 : Rx := Rx.catList
  [Rx.strLit "未来", Rx.opt (Rx.strLit "业务"), Rx.strLit "发展展望"]

/-- `_OUTLOOK_REGEXES` (priority order). -/
def OUTLOOK_REGEXES : List Rx :=
  [outlookPattern0, outlookPattern1, outlookPattern2, outlookPattern3,
   outlookPattern4, outlookPattern5, outlookPattern6]

/-- The inner `for pattern_idx, regex in enumerate(...)` loop with its
`break`: the first pattern index whose `search` succeeds, with the matched
text. -/
def firstOutlookMatchAux : List Rx → Nat → String → Option (Nat × String)
  | [], _, _ => none
  | r :: rest, i, stripped =>
    match rxMatchText r stripped with
    | some kw => some (i, kw)
    | none => firstOutlookMatchAux rest (i + 1) stripped

def firstOutlookMatch (stripped : String) : Option (Nat × String) :=
  firstOutlookMatchAux OUTLOOK_REGEXES 0 stripped

/-- Python character slicing `s[:n]`. -/
def strTake (s : String) (n : Nat) : String := String.mk (s.data.take n)

/-- Python character slicing `s[n:]`. -/
def strDrop (s : String) (n : Nat) : String := String.mk (s.data.drop n)

/-- `MdaSections` dataclass from `section_splitter.py`. -/
structure MdaSections where
  review : String
  outlook : Option String
  split_keyword : Option String
  split_position : Option Nat
deriving DecidableEq, Repr

/-- One iteration of the line scan of `split_mda_sections`. The state is
`(best_match as (start, keyword), best_pattern_idx, char_offset)`; blank
lines and stripped lines over 80 characters are skipped; a match replaces
the best when its pattern index is smaller, or equal with an earlier offset
(or no best yet). -/
def splitScanStep (st : Option (Nat × String) × Nat × Nat) (line : String) :
    Option (Nat × String) × Nat × Nat :=
  let best := st.1
  let best_idx := st.2.1
  let char_offset := st.2.2
  let next_offset := char_offset + line.length + 1
  let stripped := pyStrip line
  if stripped = "" then (best, best_idx, next_offset)
  else if 80 < stripped.length then (best, best_idx, next_offset)
  else
    match firstOutlookMatch stripped with
    | none => (best, best_idx, next_offset)
    | some (pattern_idx, kw) =>
      let doUpdate :=
        decide (pattern_idx < best_idx) ||
          (decide (pattern_idx = best_idx) &&
            (match best with
             | none => true
             | some b => decide (char_offset < b.1)))
      if doUpdate then (some (char_offset, kw), pattern_idx, next_offset)
      else (best, best_idx, next_offset)

/-- The best-match scan of `split_mda_sections`: `best_pattern_idx` starts
at `len(OUTLOOK_PATTERNS) = 7`. -/
def findBestOutlook (mda_text : String) : Option (Nat × String) :=
  ((pySplitlines mda_text).foldl splitScanStep (none, 7, 0)).1

/-- `split_mda_sections(mda_text)` from `section_splitter.py`. -/
def split_mda_sections (mda_text : String) : MdaSections :=
  if mda_text = "" ∨ pyStrip mda_text = "" then ⟨"", none, none, none⟩
  else
    match findBestOutlook mda_text with
    | none => ⟨mda_text, none, none, none⟩
    | some (split_pos, keyword) =>
      let review := pyRstrip (strTake mda_text split_pos)
      let outlook := pyStrip (strDrop mda_text split_pos)
      if review.length < 500 ∨ outlook.length < 200 then
        ⟨mda_text, none, none, none⟩
      else
        ⟨review, some outlook, some keyword, some split_pos⟩

/-! ### Claim C7: splitter round trip and minimum lengths -/

lemma lstrip_decomp (p : Char → Bool) (l : List Char) :
    ∃ w, (∀ c ∈ w, p c = true) ∧ w ++ lstripList p l = l :=
  ⟨l.takeWhile p, fun _ hc => List.mem_takeWhile_imp hc,
    List.takeWhile_append_dropWhile p l⟩

lemma rstrip_decomp (p : Char → Bool) (l : List Char) :
    ∃ w, (∀ c ∈ w, p c = true) ∧ rstripList p l ++ w = l := by
  refine ⟨(l.reverse.takeWhile p).reverse, ?_, ?_⟩
  · intro c hc
    rw [List.mem_reverse] at hc
    exact List.mem_takeWhile_imp hc
  · unfold rstripList
    rw [← List.reverse_append, List.takeWhile_append_dropWhile, List.reverse_reverse]

lemma strip_decomp (p : Char → Bool) (l : List Char) :
    ∃ w1 w2, (∀ c ∈ w1, p c = true) ∧ (∀ c ∈ w2, p c = true) ∧
      w1 ++ (stripList p l ++ w2) = l := by
  obtain ⟨w1, h1, e1⟩ := lstrip_decomp p l
  obtain ⟨w2, h2, e2⟩ := rstrip_decomp p (lstripList p l)
  refine ⟨w1, w2, h1, h2, ?_⟩
  unfold stripList
  rw [e2, e1]

lemma string_mk_append (a b : List Char) :
    String.mk a ++ String.mk b = String.mk (a ++ b) := rfl

lemma strData_append (a b : String) : (a ++ b).data = a.data ++ b.data := rfl

lemma strExt {a b : String} (h : a.data = b.data) : a = b := by
  cases a
  cases b
  exact congrArg String.mk h

lemma pyRstrip_decomp (s : String) :
    ∃ w : String, (∀ c ∈ w.data, pyIsSpace c = true) ∧ pyRstrip s ++ w = s := by
  obtain ⟨w, hw, he⟩ := rstrip_decomp pyIsSpace s.data
  exact ⟨String.mk w, hw, by rw [pyRstrip, string_mk_append, he]⟩

lemma pyStrip_decomp (s : String) :
    ∃ w1 w2 : String, (∀ c ∈ w1.data, pyIsSpace c = true) ∧
      (∀ c ∈ w2.data, pyIsSpace c = true) ∧ w1 ++ (pyStrip s ++ w2) = s := by
  obtain ⟨w1, w2, h1, h2, he⟩ := strip_decomp pyIsSpace s.data
  exact ⟨String.mk w1, String.mk w2, h1, h2, by
    rw [pyStrip, string_mk_append, string_mk_append, he]⟩

lemma strTake_append_strDrop (s : String) (n : Nat) :
    strTake s n ++ strDrop s n = s := by
  rw [strTake, strDrop, string_mk_append, List.take_append_drop]

lemma split_eq_of_match {t : String} {pos : Nat} {kw : String}
    (h1 : ¬(t = "" ∨ pyStrip t = ""))
    (hb : findBestOutlook t = some (pos, kw))
    (hlen : ¬((pyRstrip (strTake t pos)).length < 500 ∨
      (pyStrip (strDrop t pos)).length < 200)) :
    split_mda_sections t =
      ⟨pyRstrip (strTake t pos), some (pyStrip (strDrop t pos)),
       some kw, some pos⟩ := by
  unfold split_mda_sections
  rw [if_neg h1, hb]
  show (if (pyRstrip (strTake t pos)).length < 500 ∨
      (pyStrip (strDrop t pos)).length < 200
    then (⟨t, none, none, none⟩ : MdaSections)
    else ⟨pyRstrip (strTake t pos), some (pyStrip (strDrop t pos)),
      some kw, some pos⟩) = _
  rw [if_neg hlen]

lemma split_eq_unsplit_short {t : String} {pos : Nat} {kw : String}
    (h1 : ¬(t = "" ∨ pyStrip t = ""))
    (hb : findBestOutlook t = some (pos, kw))
    (hlen : (pyRstrip (strTake t pos)).length < 500 ∨
      (pyStrip (strDrop t pos)).length < 200) :
    split_mda_sections t = ⟨t, none, none, none⟩ := by
  unfold split_mda_sections
  rw [if_neg h1, hb]
  show (if (pyRstrip (strTake t pos)).length < 500 ∨
      (pyStrip (strDrop t pos)).length < 200
    then (⟨t, none, none, none⟩ : MdaSections)
    else ⟨pyRstrip (strTake t pos), some (pyStrip (strDrop t pos)),
      some kw, some pos⟩) = _
  rw [if_pos hlen]

lemma split_eq_unsplit_nomatch {t : String}
    (h1 : ¬(t = "" ∨ pyStrip t = ""))
    (hb : findBestOutlook t = none) :
    split_mda_sections t = ⟨t, none, none, none⟩ := by
  unfold split_mda_sections
  rw [if_neg h1, hb]

/-- C7 (amended): when a split occurs, `review ++ outlook` reconstructs the
original text up to whitespace at the join boundary and trailing whitespace
at the very end of the text (which `outlook.strip()` also removes), with
`review` at least 500 and `outlook` at least 200 characters; whenever the
chosen split would leave `review` under 500 or `outlook` under 200
characters, the function returns the unsplit original text as `review` with
no `outlook`. -/
theorem split_mda_sections_spec (t : String) :
    (¬(t = "" ∨ pyStrip t = "") → ∀ pos kw, findBestOutlook t = some (pos, kw) →
      ((pyRstrip (strTake t pos)).length < 500 ∨
        (pyStrip (strDrop t pos)).length < 200) →
      split_mda_sections t = ⟨t, none, none, none⟩) ∧
    (¬(t = "" ∨ pyStrip t = "") → findBestOutlook t = none →
      split_mda_sections t = ⟨t, none, none, none⟩) ∧
    (∀ o, (split_mda_sections t).outlook = some o →
      500 ≤ (split_mda_sections t).review.length ∧ 200 ≤ o.length ∧
      ∃ wmid wend : String, (∀ c ∈ wmid.data, pyIsSpace c = true) ∧
        (∀ c ∈ wend.data, pyIsSpace c = true) ∧
        (split_mda_sections t).review ++ (wmid ++ (o ++ wend)) = t) := by
  refine ⟨fun h1 pos kw hb hlen => split_eq_unsplit_short h1 hb hlen,
    fun h1 hb => split_eq_unsplit_nomatch h1 hb, ?_⟩
  intro o ho
  by_cases h1 : t = "" ∨ pyStrip t = ""
  · rw [split_mda_sections, if_pos h1] at ho
    exact absurd ho (by simp)
  · rcases hb : findBestOutlook t with _ | ⟨pos, kw⟩
    · rw [split_eq_unsplit_nomatch h1 hb] at ho
      exact absurd ho (by simp)
    · by_cases hlen : (pyRstrip (strTake t pos)).length < 500 ∨
          (pyStrip (strDrop t pos)).length < 200
      · rw [split_eq_unsplit_short h1 hb hlen] at ho
        exact absurd ho (by simp)
      · have hsplit := split_eq_of_match h1 hb hlen
        rw [hsplit] at ho ⊢
        have ho' : o = pyStrip (strDrop t pos) := by
          simpa using ho.symm
        subst ho'
        push_neg at hlen
        refine ⟨by simpa using hlen.1, by simpa using hlen.2, ?_⟩
        obtain ⟨w1, hw1, e1⟩ := pyRstrip_decomp (strTake t pos)
        obtain ⟨w2, w3, hw2, hw3, e2⟩ := pyStrip_decomp (strDrop t pos)
        refine ⟨w1 ++ w2, w3, ?_, hw3, ?_⟩
        · intro c hc
          rcases List.mem_append.mp (by simpa [strData_append] using hc) with hc | hc
          · exact hw1 c hc
          · exact hw2 c hc
        · apply strExt
          have e1' : (pyRstrip (strTake t pos)).data ++ w1.data
              = (strTake t pos).data := by
            rw [← strData_append, e1]
          have e2' : w2.data ++ ((pyStrip (strDrop t pos)).data ++ w3.data)
              = (strDrop t pos).data := by
            rw [← strData_append, ← strData_append, e2]
          simp only [strData_append, List.append_assoc]
          calc (pyRstrip (strTake t pos)).data ++
                (w1.data ++ (w2.data ++ ((pyStrip (strDrop t pos)).data ++ w3.data)))
              = ((pyRstrip (strTake t pos)).data ++ w1.data) ++
                (w2.data ++ ((pyStrip (strDrop t pos)).data ++ w3.data)) := by
                rw [List.append_assoc]
            _ = (strTake t pos).data ++ (strDrop t pos).data := by rw [e1', e2']
            _ = t.data := List.take_append_drop _ _

/-- Concrete text for the C7 round-trip counterexample: a 600-character
review line, an outlook heading, 300 characters of outlook body — and a
trailing newline. -/
def splitCexText : String :=
  String.mk (List.replicate 600 'a') ++ "\n" ++ "一、公司未来发展展望" ++ "\n"
    ++ String.mk (List.replicate 300 'b') ++ "\n"

/-- The outlook part the splitter produces on `splitCexText`: the trailing
newline of the document is stripped away. -/
def splitCexOutlook : String :=
  "一、公司未来发展展望" ++ "\n" ++ String.mk (List.replicate 300 'b')

/-- Counterexample to C7 as stated: on a text ending in a newline the split
occurs, but no whitespace inserted at the exact join boundary alone can
reconstruct the original text — `outlook.strip()` also removes the trailing
newline at the far end of the document, so `review + w + outlook` ends in a
non-whitespace character while the original ends in `'\n'`. -/
theorem split_roundtrip_counterexample :
    (split_mda_sections splitCexText).outlook.isSome = true ∧
    ¬ ∃ w : String, (∀ c ∈ w.data, pyIsSpace c = true) ∧
      (split_mda_sections splitCexText).review ++ (w ++
        ((split_mda_sections splitCexText).outlook.getD "")) = splitCexText := by
  have hsplit : split_mda_sections splitCexText =
      ⟨String.mk (List.replicate 600 'a'), some splitCexOutlook,
       some "一、公司未来发展", some 601⟩ := by decide
  refine ⟨by rw [hsplit]; rfl, ?_⟩
  rintro ⟨w, hw, he⟩
  rw [hsplit] at he
  have hlast := congrArg (fun s : String => s.data.getLast?) he
  simp only [strData_append] at hlast
  rw [List.getLast?_append, List.getLast?_append] at hlast
  have hb : (((⟨String.mk (List.replicate 600 'a'), some splitCexOutlook,
      some "一、公司未来发展", some 601⟩ : MdaSections).outlook.getD "")).data.getLast?
      = some 'b' := by decide
  rw [hb] at hlast
  have ht : splitCexText.data.getLast? = some '\n' := by decide
  rw [ht] at hlast
  simp [Option.or] at hlast

/-- Witness for C7 (amended): a heading-first text whose split would leave
`review` empty is returned unsplit; a text with no outlook heading is
returned unsplit; the concrete `splitCexText` splits with both length
bounds met and reconstructs up to boundary and trailing whitespace. -/
theorem split_mda_sections_spec_witness :
    split_mda_sections "一、公司未来发展展望\nshort"
      = ⟨"一、公司未来发展展望\nshort", none, none, none⟩ ∧
    split_mda_sections "hello world" = ⟨"hello world", none, none, none⟩ ∧
    (500 ≤ (split_mda_sections splitCexText).review.length ∧
      200 ≤ splitCexOutlook.length ∧
      ∃ wmid wend : String, (∀ c ∈ wmid.data, pyIsSpace c = true) ∧
        (∀ c ∈ wend.data, pyIsSpace c = true) ∧
        (split_mda_sections splitCexText).review ++ (wmid ++
          (splitCexOutlook ++ wend)) = splitCexText) := by
  refine ⟨?_, ?_, ?_⟩
  · exact (split_mda_sections_spec "一、公司未来发展展望\nshort").1 (by decide)
      0 "一、公司未来发展" (by decide) (by decide)
  · exact (split_mda_sections_spec "hello world").2.1 (by decide) (by decide)
  · exact (split_mda_sections_spec splitCexText).2.2 splitCexOutlook (by decide)

/-! ### `strategies.py`: constants, heading and TOC helpers -/

/-- `MDA_TITLES` from `scorer.py`. -/
def MDA_TITLES : List String :=
  ["董事会报告", "董事局报告", "经营情况讨论与分析", "经营层讨论与分析",
   "管理层讨论与分析", "管理层分析与讨论", "董事会工作报告", "董事局工作报告",
   "经营分析与讨论", "讨论与分析", "业务回顾", "业务回顾与展望",
   "董事会报告书", "董事会工作汇报", "Management Discussion and Analysis", "MD&A"]

/-- `NEXT_TITLES` from `scorer.py`. -/
def NEXT_TITLES : List String :=
  ["监事会报告", "监事会工作报告", "重要事项", "公司治理", "财务报告", "审计报告"]

/-- `[一二三四五六七八九十百零\d]`. -/
def rxCjkNumFull : Rx :=
  .cls (fun c => "一二三四五六七八九十百零".data.contains c || c.isDigit)

/-- `MDA_PATTERNS` from `scorer.py`, transcribed:
`第[…]+[章节部分]\s*管理层讨论与分析`, `第[…]+[章节部分]\s*董事会报告`,
`[…]+[、\.]\s*董事会报告`, `[…]+[、\.]\s*管理层讨论与分析`. -/
def MDA_PATTERNS_RX : List Rx :=
  [Rx.catList [Rx.strLit "第", Rx.plus rxCjkNumFull, Rx.charsIn "章节部分".data,
     Rx.star rxSpace, Rx.strLit "管理层讨论与分析"],
   Rx.catList [Rx.strLit "第", Rx.plus rxCjkNumFull, Rx.charsIn "章节部分".data,
     Rx.star rxSpace, Rx.strLit "董事会报告"],
   Rx.catList [Rx.plus rxCjkNumFull, Rx.charsIn "、.".data,
     Rx.star rxSpace, Rx.strLit "董事会报告"],
   Rx.catList [Rx.plus rxCjkNumFull, Rx.charsIn "、.".data,
     Rx.star rxSpace, Rx.strLit "管理层讨论与分析"]]

/-- The `[.…\.·]{2,}\s*\d+\s*` part of `_TOC_DOTLINE_RE`. -/
def tocDotRx : Rx :=
  Rx.catList [Rx.charsIn ['.', '…', '·'], Rx.charsIn ['.', '…', '·'],
    Rx.star (Rx.charsIn ['.', '…', '·']), Rx.star rxSpace,
    Rx.plus rxDigit, Rx.star rxSpace]

/-- `_TOC_DOTLINE_RE.search(s)`: the pattern is `$`-anchored, so a match is a
suffix of the line matching `tocDotRx` entirely (lines here never contain a
trailing newline). -/
def tocDotlineSearch (s : String) : Bool := Rx.someSufAll tocDotRx s.data

/-- `_SECTION_LEVEL_RE = ^第[一二三四五六七八九十百零\d]+[章节部分]`
(used with `.match`, i.e. anchored at the start). -/
def sectionLevelRx : Rx :=
  Rx.catList [Rx.strLit "第", Rx.plus rxCjkNumFull, Rx.charsIn "章节部分".data]

/-- `_REFERENCE_WORDS` from `strategies.py`. -/
def REFERENCE_WORDS : List String :=
  ["参见", "详见", "见本", "请参阅", "详情请见", "参考", "参阅"]

/-- `_looks_like_heading(line)` from `strategies.py`
(`_HEADING_MAX_LEN = 60`; `re.fullmatch(r"\d+", s)` is a nonempty all-digit
string). -/
def isHeadingLine (line : String) : Bool :=
  let s := pyStrip line
  if s = "" then false
  else if 60 < s.length then false
  else if tocDotlineSearch s then false
  else if s.data.all Char.isDigit then false
  else if REFERENCE_WORDS.any (fun ref => pyContains s ref) then false
  else true

/-- `_is_toc_page(text)` from `strategies.py`. -/
def isTocPage (text : String) : Bool :=
  if text = "" then false
  else
    let lines := ((pySplitlines text).map pyStrip).filter (fun l => l ≠ "")
    let dot_lines := (lines.filter (fun l => tocDotlineSearch l)).length
    let has_toc_keyword := pyContains text "目 录" || pyContains text "目录"
    if has_toc_keyword && 2 ≤ dot_lines then true
    else if lines.length < 8 then false
    else 5 ≤ dot_lines

/-- `_compile_title_regex(titles).search(line)`: the alternation of the
escaped nonempty titles succeeds iff one of them is a substring; with no
nonempty title the compiled pattern is `^$`, which only matches when the
line has no characters. -/
def titleSearch (titles : List String) (line : String) : Bool :=
  let escaped := titles.filter (fun t => t ≠ "")
  if escaped.isEmpty then line = ""
  else escaped.any (fun t => pyContains line t)

/-- `_find_heading_hits(pages, title_regex, pattern_regexes)` from
`strategies.py`: `(page_index, line_index, line.strip())` triples of heading
lines matching a section-numbering pattern or a title, skipping
table-of-contents pages when there is more than one page. -/
def findHeadingHits (pages : List String) (titles : List String)
    (pattern_regexes : List Rx) : List (Nat × Nat × String) :=
  let skip_toc_pages := 1 < pages.length
  (pages.enum.map (fun pi =>
    if skip_toc_pages && isTocPage pi.2 then []
    else
      (pySplitlines pi.2).enum.filterMap (fun li =>
        if !(isHeadingLine li.2) then none
        else if pattern_regexes.any (fun r => rxSearch r li.2) ||
            titleSearch titles li.2 then
          some (pi.1, li.1, pyStrip li.2)
        else none))).flatten

/-- `_find_end_hits(...)` from `strategies.py`: scan pages
`start_page_index ≤ p < min(len(pages), max_page_index_exclusive)` (lines
after the start line on the start page) for heading lines matching a next
section title that is either a `第X节`-level heading or starts the line. -/
def findEndHits (pages : List String) (start_page_index start_line_index : Nat)
    (end_titles : List String) (max_page_index_exclusive : Nat) :
    List (Nat × Nat × String) :=
  ((List.range' start_page_index
      (min pages.length max_page_index_exclusive - start_page_index)).map
    (fun page_index =>
      let lines := pySplitlines (pages.getD page_index "")
      let begin_ := if page_index = start_page_index then start_line_index + 1 else 0
      lines.enum.filterMap (fun li =>
        if li.1 < begin_ then none
        else if !(isHeadingLine li.2) then none
        else if !(titleSearch end_titles li.2) then none
        else
          let stripped := pyStrip li.2
          if rxMatchStart sectionLevelRx stripped then
            some (page_index, li.1, stripped)
          else if end_titles.any (fun t => t.data.isPrefixOf stripped.data) then
            some (page_index, li.1, stripped)
          else none))).flatten

/-- `"sep".join(parts)`. -/
def strJoin (sep : String) : List String → String
  | [] => ""
  | x :: rest => rest.foldl (fun acc y => acc ++ sep ++ y) x

/-- `_extract_between(...)` from `strategies.py`: page texts from the start
line to the end line (both slices applied sequentially, as in the source),
each page stripped of outer newlines, non-blank pages joined by `\n`;
returns `(text, page_index_start, exclusive page_index_end)`. -/
def extractBetween (pages : List String) (start_page_index start_line_index : Nat)
    (end_page_index : Option Nat) (end_line_index : Option Nat) :
    String × Nat × Nat :=
  let ep : Nat × Option Nat :=
    match end_page_index with
    | none => (pages.length - 1, none)
    | some e => (e, end_line_index)
  let end_page_index := ep.1
  let end_line_index := ep.2
  let selected_pages :=
    (List.range' start_page_index (end_page_index + 1 - start_page_index)).map
      (fun page_index =>
        let lines := pySplitlines (pages.getD page_index "")
        let lines := if page_index = start_page_index
          then lines.drop start_line_index else lines
        let lines := if page_index = end_page_index then
            match end_line_index with
            | some el => lines.take el
            | none => lines
          else lines
        pyStripChar '\n' (strJoin "\n" lines))
  let text := strJoin "\n" (selected_pages.filter (fun p => pyStrip p ≠ ""))
  (text, start_page_index, end_page_index + 1)

/-- `_apply_limits(...)` from `strategies.py`: clip to `max_pages` pages and
`max_chars` characters; whichever limit triggers first sets
`truncation_reason` (`"max_pages" | "end_not_found" | "max_chars"`). -/
def applyLimits (pages : List String) (start_page_index start_line_index : Nat)
    (max_pages max_chars : Nat)
    (end_page_index : Option Nat) (end_line_index : Option Nat) :
    String × Nat × Nat × Bool × Option String :=
  let page_limit_end_exclusive := min pages.length (start_page_index + max_pages)
  let lim : Nat × Option Nat × Bool × Option String :=
    match end_page_index with
    | none =>
      if page_limit_end_exclusive < pages.length then
        (page_limit_end_exclusive - 1, none, true, some "max_pages")
      else
        (pages.length - 1, none, true, some "end_not_found")
    | some e =>
      if page_limit_end_exclusive < e + 1 then
        (page_limit_end_exclusive - 1, none, true, some "max_pages")
      else (e, end_line_index, false, none)
  let r := extractBetween pages start_page_index start_line_index
    (some lim.1) lim.2.1
  let text := r.1
  let is_truncated := lim.2.2.1
  let truncation_reason := lim.2.2.2
  if max_chars < text.length then
    let text := strTake text max_chars
    if is_truncated then (text, r.2.1, r.2.2, is_truncated, truncation_reason)
    else (text, r.2.1, r.2.2, true, some "max_chars")
  else (text, r.2.1, r.2.2, is_truncated, truncation_reason)

/-! ### `strategies.py`: extraction results and the three strategies -/

/-- The closed shape of the `quality_detail` dict: `page_break_kind` and
`char_count` are always present, `anchor_hit_count` is set by
`_compute_quality`, `toc_body_page_diff` by the cross-validation step. -/
structure QualityDetail where
  page_break_kind : String
  char_count : Nat
  anchor_hit_count : Option Nat
  toc_body_page_diff : Option Nat
deriving DecidableEq, Repr

/-- `ExtractionResult` dataclass from `strategies.py`. -/
structure ExtractionResult where
  mda_raw : String
  score : ℚ
  score_detail : ScoreDetail
  page_index_start : Nat
  page_index_end : Nat
  page_count : Nat
  printed_page_start : Option Nat
  printed_page_end : Option Nat
  hit_start : String
  hit_end : Option String
  is_truncated : Bool
  truncation_reason : Option String
  used_rule_type : String
  quality_flags : List String
  quality_detail : QualityDetail
deriving DecidableEq, Repr

/-- `TocHit` dataclass from `strategies.py`. -/
structure TocHit where
  printed_page_start : Nat
  printed_page_end : Option Nat
  page_index_start : Nat
  page_index_end : Option Nat
deriving DecidableEq, Repr

/-- `_compute_quality(text, page_break_kind)` from `strategies.py`. -/
def computeQuality (text : String) (page_break_kind : String) :
    List String × QualityDetail :=
  let flags : List String :=
    if page_break_kind = "none" then ["FLAG_PAGE_BOUNDARY_MISSING"] else []
  let flags := if text.length < 1000 || 50000 < text.length
    then flags ++ ["FLAG_LENGTH_ABNORMAL"] else flags
  let anchor_words : List String := ["收入", "利润", "同比"]
  let anchor_hit := (anchor_words.filter (fun w => pyContains text w)).length
  let flags := if anchor_hit < 2 then flags ++ ["FLAG_CONTENT_MISMATCH"] else flags
  let tail := if 500 < text.length then strDrop text (text.length - 500) else text
  let flags := if pyContains tail "监事会" || pyContains tail "审计报告"
    then flags ++ ["FLAG_TAIL_OVERLAP"] else flags
  (flags, ⟨page_break_kind, text.length, some anchor_hit, none⟩)

/-- `_try_extract_with_custom_rule(...)` from `strategies.py`: the escaped
start/end patterns match as literal substrings of heading lines; the first
start hit wins and the end is the first later heading hit within
`max_pages`. -/
def tryExtractWithCustomRule (pages : List String) (start_pattern : String)
    (end_pattern : Option String) (max_pages max_chars : Nat)
    (page_break_kind : String) : Option ExtractionResult :=
  pages.enum.findSome? (fun pi =>
    (pySplitlines pi.2).enum.findSome? (fun li =>
      if !(isHeadingLine li.2) then none
      else if !(pyContains li.2 start_pattern) then none
      else
        let endHit : Option (Nat × Nat × String) :=
          match end_pattern with
          | none => none
          | some ep =>
            (List.range' pi.1 (min pages.length (pi.1 + max_pages) - pi.1)).findSome?
              (fun p =>
                let p_lines := pySplitlines (pages.getD p "")
                let begin_ := if p = pi.1 then li.1 + 1 else 0
                p_lines.enum.findSome? (fun ci =>
                  if ci.1 < begin_ then none
                  else if !(isHeadingLine ci.2) then none
                  else if pyContains ci.2 ep then some (p, ci.1, pyStrip ci.2)
                  else none))
        let ends : Option Nat × Option Nat × Option String :=
          match endHit with
          | some e => (some e.1, some e.2.1, some e.2.2)
          | none => (none, none, none)
        let r := applyLimits pages pi.1 li.1 max_pages max_chars ends.1 ends.2.1
        let s := calculate_mda_score r.1
        let q := computeQuality r.1 page_break_kind
        some ⟨r.1, s.1, s.2, r.2.1, r.2.2.1, r.2.2.1 - r.2.1, none, none,
          pyStrip li.2, ends.2.2, r.2.2.2.1, r.2.2.2.2, "custom", q.1, q.2⟩))

/-- `int(m.group(1))` of `re.search(r"(\d+)\s*$", ln)`: the trailing digit
run before optional trailing whitespace. -/
def trailingNumber (ln : String) : Option Nat :=
  let rev := ln.data.reverse.dropWhile pyIsSpace
  let digits := rev.takeWhile Char.isDigit
  if digits.isEmpty then none
  else some (digits.reverse.foldl (fun acc c => acc * 10 + (c.toNat - 48)) 0)

/-- The `for ln in lines` loop of `parse_toc_for_page_range`: find the
printed page number after the MD&A title, then the printed number of the
next listed section (`continue`/`break` transcribed as recursion). -/
def tocScanLines : List String → Option Nat → Option Nat → Option Nat × Option Nat
  | [], ps, pe => (ps, pe)
  | ln :: rest, ps, pe =>
    if !(tocDotlineSearch ln) then tocScanLines rest ps pe
    else
      if ps.isNone && titleSearch MDA_TITLES ln then
        match trailingNumber ln with
        | some n => tocScanLines rest (some n) pe
        | none => tocScanLines rest ps pe
      else if ps.isSome && pe.isNone && titleSearch NEXT_TITLES ln then
        match trailingNumber ln with
        | some n => (ps, some n)
        | none => tocScanLines rest ps pe
      else tocScanLines rest ps pe

/-- `_map_printed_to_index(pn)`: first page index whose loader-supplied
printed number equals `pn`. -/
def mapPrintedToIndex (page_numbers : List (Option Nat)) (pn : Nat) : Option Nat :=
  page_numbers.enum.findSome? (fun ip =>
    if ip.2 = some pn then some ip.1 else none)

/-- `parse_toc_for_page_range(pages, page_numbers=..., scan_pages=15)` from
`strategies.py`. -/
def parse_toc_for_page_range (pages : List String)
    (page_numbers : Option (List (Option Nat)) := none)
    (scan_pages : Nat := 15) : Option TocHit :=
  if pages = [] then none
  else
    let toc_pages := (pages.take scan_pages).filter isTocPage
    if toc_pages = [] then none
    else
      let toc_text := strJoin "\n" toc_pages
      let lines := ((pySplitlines toc_text).map pyStrip).filter (fun l => l ≠ "")
      let scan := tocScanLines lines none none
      match scan.1 with
      | none => none
      | some printed_start =>
        match page_numbers with
        | none => none
        | some pn =>
          if pn = [] then none
          else
            match mapPrintedToIndex pn printed_start with
            | none => none
            | some page_index_start =>
              let page_index_end := scan.2.bind (fun pe => mapPrintedToIndex pn pe)
              some ⟨printed_start, scan.2, page_index_start, page_index_end⟩

/-- `extract_mda_from_pages(pages, ...)` from `strategies.py` (the generic
heading scan): among the heading hits, pick the one whose following ~2
pages / 2000 characters score best, with a `+0.5` bonus for
`第X节`-level headings (strictly-greater comparison keeps the first best). -/
def extract_mda_from_pages (pages : List String)
    (max_pages : Nat := 15) (max_chars : Nat := 120000)
    (page_break_kind : String := "none") : Option ExtractionResult :=
  if pages = [] then none
  else
    let start_hits := findHeadingHits pages MDA_TITLES MDA_PATTERNS_RX
    if start_hits = [] then none
    else
      let best := start_hits.foldl
        (fun (acc : Option (Nat × Nat × String) × ℚ) hit =>
          let snippet := applyLimits pages hit.1 hit.2.1 2 2000 none none
          let score0 := (calculate_mda_score snippet.1).1
          let score := if rxMatchStart sectionLevelRx (pyStrip hit.2.2)
            then score0 + 1/2 else score0
          if acc.2 < score then (some hit, score) else acc)
        (none, -1)
      match best.1 with
      | none => none
      | some bh =>
        let start_page_index := bh.1
        let start_line_index := bh.2.1
        let hit_start := bh.2.2
        let max_page_index_exclusive := min pages.length (start_page_index + max_pages)
        let end_hits := findEndHits pages start_page_index start_line_index
          NEXT_TITLES max_page_index_exclusive
        let ends : Option Nat × Option Nat × Option String :=
          match end_hits with
          | [] => (none, none, none)
          | e :: _ => (some e.1, some e.2.1, some e.2.2)
        let r := applyLimits pages start_page_index start_line_index
          max_pages max_chars ends.1 ends.2.1
        let s := calculate_mda_score r.1
        let q := computeQuality r.1 page_break_kind
        some ⟨r.1, s.1, s.2, r.2.1, r.2.2.1, r.2.2.1 - r.2.1, none, none,
          hit_start, ends.2.2, r.2.2.2.1, r.2.2.2.2, "generic", q.1, q.2⟩

/-! ### `strategies.py`: cross-validation and best-candidate selection -/

/-- The Python sort key `(c.score, len(c.mda_raw))`. -/
def candKey (c : ExtractionResult) : ℚ × Nat := (c.score, c.mda_raw.length)

/-- Lexicographic order on the sort key (Python tuple comparison). -/
def keyLt (x y : ℚ × Nat) : Prop := x.1 < y.1 ∨ (x.1 = y.1 ∧ x.2 < y.2)

instance (x y : ℚ × Nat) : Decidable (keyLt x y) := by
  unfold keyLt
  infer_instance

/-- `a` ranks strictly above `b` in the descending sort. -/
def candBefore (a b : ExtractionResult) : Bool := decide (keyLt (candKey b) (candKey a))

/-- Stable insertion into a sorted list: the new element goes after every
element it does not strictly outrank. -/
def sInsert {α : Type} (before : α → α → Bool) (x : α) : List α → List α
  | [] => [x]
  | y :: t => if before x y then x :: y :: t else y :: sInsert before x t

/-- Stable sort (insertion sort), the semantics of Python `list.sort` with
`reverse=True` when `before` is "strictly greater key". -/
def sSort {α : Type} (before : α → α → Bool) (l : List α) : List α :=
  l.foldl (fun acc x => sInsert before x acc) []

/-- `abs(toc.page_index_start - body.page_index_start)`. -/
def pageDiff (tr br : ExtractionResult) : Nat :=
  ((tr.page_index_start : Int) - (br.page_index_start : Int)).natAbs

/-- The tail of the selection phase: take the head of the ranked candidate
list, reject it when its score is ≤ 0.4, and otherwise return it with the
cross-validation flag and page distance merged in when both a `toc` and a
`generic` candidate exist and their page starts differ by more than 2. -/
def selectRanked (toc_result body_result : Option ExtractionResult) :
    List ExtractionResult → Option ExtractionResult
  | [] => none
  | best :: _ =>
    let extra_flags : List String :=
      match toc_result, body_result with
      | some tr, some br => if 2 < pageDiff tr br then ["FLAG_TOC_MISMATCH"] else []
      | _, _ => []
    if best.score ≤ 2/5 then none
    else if extra_flags = [] then some best
    else
      some { best with
        quality_flags := best.quality_flags ++ extra_flags,
        quality_detail :=
          match toc_result, body_result with
          | some tr, some br =>
            { best.quality_detail with toc_body_page_diff := some (pageDiff tr br) }
          | _, _ => best.quality_detail }

/-- The selection tail of `extract_mda_iterative` (`strategies.py`,
lines 551–598): reject an empty candidate set; cross-validate the `toc` and
`generic` candidates (first of each kind, as `next(...)`), flagging
`FLAG_TOC_MISMATCH` when their page starts differ by more than 2; sort by
`(score, len(text))` descending (stable, as `list.sort(reverse=True)`);
reject the top candidate when its score is ≤ 0.4; otherwise return it, with
the extra flag and the page distance merged in when cross-validation
fired. -/
def select_best_candidate (candidates : List ExtractionResult) :
    Option ExtractionResult :=
  if candidates = [] then none
  else
    selectRanked
      (candidates.find? (fun c => c.used_rule_type == "toc"))
      (candidates.find? (fun c => c.used_rule_type == "generic"))
      (sSort candBefore candidates)

/-- `extract_mda_iterative(pages, ...)` from `strategies.py`: run the
custom-rule, TOC-mapped and generic strategies, then select the best
candidate. The Python `if custom_start_pattern:` is falsy for both `None`
and the empty string. -/
def extract_mda_iterative (pages : List String)
    (page_numbers : Option (List (Option Nat)) := none)
    (page_break_kind : String := "none")
    (max_pages : Nat := 15) (max_chars : Nat := 120000)
    (custom_start_pattern : Option String := none)
    (custom_end_pattern : Option String := none) : Option ExtractionResult :=
  let candidates : List ExtractionResult := []
  let candidates :=
    match custom_start_pattern with
    | some csp =>
      if csp = "" then candidates
      else
        match tryExtractWithCustomRule pages csp custom_end_pattern
            max_pages max_chars page_break_kind with
        | some c => candidates ++ [c]
        | none => candidates
    | none => candidates
  let candidates :=
    match parse_toc_for_page_range pages page_numbers with
    | some toc =>
      match toc.page_index_end with
      | some pie =>
        -- `toc.page_index_end - 1`: the mapped end index is at least 1 in
        -- any input where the next section is listed after the MD&A start.
        let e := extractBetween pages toc.page_index_start 0 (some (pie - 1)) none
        let limited_text := strTake e.1 max_chars
        let s := calculate_mda_score limited_text
        let q := computeQuality limited_text page_break_kind
        candidates ++ [⟨limited_text, s.1, s.2, e.2.1, e.2.2,
          e.2.2 - e.2.1, some toc.printed_page_start, toc.printed_page_end,
          "toc", none, max_chars < e.1.length,
          if max_chars < e.1.length then some "max_chars" else none,
          "toc", q.1, q.2⟩]
      | none => candidates
    | none => candidates
  let candidates :=
    match extract_mda_from_pages pages max_pages max_chars page_break_kind with
    | some body => candidates ++ [body]
    | none => candidates
  select_best_candidate candidates

/-! ### Claims C3, C9: candidate ranking, rejection and cross-validation -/

/-- The candidate fields that identify the selected extraction — everything
except the quality-annotation fields the cross-validation step may touch. -/
def sameCore (a b : ExtractionResult) : Prop :=
  a.mda_raw = b.mda_raw ∧ a.score = b.score ∧ a.score_detail = b.score_detail ∧
  a.page_index_start = b.page_index_start ∧ a.page_index_end = b.page_index_end ∧
  a.page_count = b.page_count ∧ a.printed_page_start = b.printed_page_start ∧
  a.printed_page_end = b.printed_page_end ∧ a.hit_start = b.hit_start ∧
  a.hit_end = b.hit_end ∧ a.is_truncated = b.is_truncated ∧
  a.truncation_reason = b.truncation_reason ∧ a.used_rule_type = b.used_rule_type

instance (a b : ExtractionResult) : Decidable (sameCore a b) := by
  unfold sameCore
  infer_instance

lemma sameCore_refl (a : ExtractionResult) : sameCore a a :=
  ⟨rfl, rfl, rfl, rfl, rfl, rfl, rfl, rfl, rfl, rfl, rfl, rfl, rfl⟩

/-- C3: for every non-empty candidate set the candidates are ranked by the
pair `(score, text length)` descending, and the function returns `none`
exactly when the top-ranked candidate's score is ≤ 0.4; otherwise it
returns that top-ranked candidate (its identifying fields unchanged). -/
theorem select_best_candidate_spec (cands : List ExtractionResult)
    (b : ExtractionResult) (hb : (sSort candBefore cands).head? = some b) :
    (select_best_candidate cands = none ↔ b.score ≤ 2/5) ∧
    (∀ r, select_best_candidate cands = some r → sameCore r b) := by
  have hcand : cands ≠ [] := by
    intro h
    subst h
    cases hb
  rcases hsorted : sSort candBefore cands with _ | ⟨b', tl⟩
  · rw [hsorted] at hb; cases hb
  · rw [hsorted] at hb
    have hb' : b' = b := by simpa using hb
    rw [← hb']
    unfold select_best_candidate
    rw [if_neg hcand, hsorted]
    simp only [selectRanked]
    constructor
    · by_cases hs : b'.score ≤ 2/5
      · rw [if_pos hs]
        simp [hs]
      · rw [if_neg hs]
        constructor
        · intro h
          split_ifs at h
        · intro h
          exact absurd h hs
    · intro r hr
      by_cases hs : b'.score ≤ 2/5
      · rw [if_pos hs] at hr; cases hr
      · rw [if_neg hs] at hr
        split_ifs at hr <;>
          (cases hr; exact sameCore_refl _)

/-- A generic-strategy candidate above the 0.4 score floor. -/
def candHigh : ExtractionResult :=
  ⟨"good candidate text", 1/2, ⟨2, 7, 0, 19⟩, 0, 2, 2, none, none,
    "第三节 管理层讨论与分析", none, false, none, "generic", [],
    ⟨"none", 19, some 0, none⟩⟩

/-- A candidate exactly at the 0.4 floor, which the selection rejects. -/
def candLow : ExtractionResult :=
  ⟨"low", 2/5, ⟨0, 7, 0, 3⟩, 0, 1, 1, none, none, "h", none, false, none,
    "generic", [], ⟨"none", 3, some 0, none⟩⟩

/-- Witness for C3: a single low-scoring candidate is rejected; a single
candidate above the floor is returned unchanged. -/
theorem select_best_candidate_spec_witness :
    select_best_candidate [candLow] = none ∧
    select_best_candidate [candHigh] = some candHigh ∧
    sameCore candHigh candHigh := by
  have hlow : select_best_candidate [candLow] = none :=
    (select_best_candidate_spec [candLow] candLow rfl).1.mpr (le_refl _)
  have hhigh : select_best_candidate [candHigh] = some candHigh := by
    unfold select_best_candidate
    rw [if_neg (by simp : ¬([candHigh] = []))]
    have hf1 : List.find? (fun c => c.used_rule_type == "toc") [candHigh] = none := rfl
    have hf2 : List.find? (fun c => c.used_rule_type == "generic") [candHigh]
        = some candHigh := rfl
    rw [hf1, hf2]
    show selectRanked none (some candHigh) [candHigh] = some candHigh
    simp only [selectRanked]
    rw [if_neg (show ¬(candHigh.score ≤ 2/5) by norm_num [candHigh])]
    simp
  exact ⟨hlow, hhigh,
    (select_best_candidate_spec [candHigh] candHigh rfl).2 candHigh hhigh⟩

/-- C9: whenever both a `toc` and a `generic` candidate exist and their
page-index starts differ by more than 2 pages, the selected winner carries
an additional `FLAG_TOC_MISMATCH` quality flag with the page distance
recorded in its quality detail, and the flag does not change which
candidate is selected (the winner's identifying fields are exactly those of
the ranking head); when the starts differ by 2 or fewer pages, or one of
the two candidates is absent, the winner is returned exactly as ranked and
no such flag is added. -/
theorem toc_mismatch_flag_spec (cands : List ExtractionResult)
    (b r : ExtractionResult)
    (hb : (sSort candBefore cands).head? = some b)
    (hr : select_best_candidate cands = some r) :
    (∀ tr br, cands.find? (fun c => c.used_rule_type == "toc") = some tr →
      cands.find? (fun c => c.used_rule_type == "generic") = some br →
      (2 < pageDiff tr br →
        r.quality_flags = b.quality_flags ++ ["FLAG_TOC_MISMATCH"] ∧
        r.quality_detail.toc_body_page_diff = some (pageDiff tr br) ∧
        sameCore r b) ∧
      (pageDiff tr br ≤ 2 → r = b)) ∧
    ((cands.find? (fun c => c.used_rule_type == "toc") = none ∨
      cands.find? (fun c => c.used_rule_type == "generic") = none) → r = b) := by
  have hcand : cands ≠ [] := by
    intro h
    subst h
    cases hb
  rcases hsorted : sSort candBefore cands with _ | ⟨b', tl⟩
  · rw [hsorted] at hb; cases hb
  · rw [hsorted] at hb
    have hb' : b' = b := by simpa using hb
    unfold select_best_candidate at hr
    rw [if_neg hcand, hsorted] at hr
    constructor
    · intro tr br htr hbr
      rw [htr, hbr] at hr
      simp only [selectRanked] at hr
      by_cases hs : b'.score ≤ 2/5
      · rw [if_pos hs] at hr; cases hr
      · rw [if_neg hs] at hr
        constructor
        · intro hd
          rw [if_pos hd] at hr
          rw [if_neg (by simp : ¬(["FLAG_TOC_MISMATCH"] = ([] : List String)))] at hr
          cases hr
          exact ⟨by rw [hb'], by simp, by rw [hb']; exact sameCore_refl _⟩
        · intro hd
          rw [if_neg (by omega : ¬(2 < pageDiff tr br))] at hr
          rw [if_pos rfl] at hr
          cases hr
          exact hb'
    · intro hor
      rcases hfg : cands.find? (fun c => c.used_rule_type == "generic")
          with _ | br
      all_goals rcases hft : cands.find? (fun c => c.used_rule_type == "toc")
          with _ | tr
      all_goals rw [hft, hfg] at hr
      all_goals simp only [selectRanked] at hr
      all_goals by_cases hs : b'.score ≤ 2/5
      all_goals first
        | (rw [if_pos hs] at hr; cases hr)
        | (rw [if_neg hs] at hr
           first
            | (rw [if_pos trivial] at hr; cases hr; exact hb')
            | (exfalso
               rcases hor with h | h
               · rw [hft] at h; cases h
               · rw [hfg] at h; cases h))

/-- A `toc`-strategy candidate starting at page 10. -/
def candToc : ExtractionResult :=
  ⟨"toc candidate text", 1/2, ⟨1, 7, 0, 18⟩, 10, 12, 2, some 5, some 7,
    "toc", none, false, none, "toc", [], ⟨"none", 18, some 1, none⟩⟩

/-- A `generic`-strategy candidate starting at page 0, ranked first. -/
def candGen : ExtractionResult :=
  ⟨"generic candidate text body", 3/5, ⟨2, 7, 0, 27⟩, 0, 2, 2, none, none,
    "第三节 管理层讨论与分析", none, false, none, "generic",
    ["FLAG_LENGTH_ABNORMAL"], ⟨"none", 27, some 1, none⟩⟩

/-- A `toc` candidate starting at page 1 (distance 1 from `candGen`). -/
def candTocNear : ExtractionResult :=
  ⟨"toc candidate text", 1/2, ⟨1, 7, 0, 18⟩, 1, 3, 2, some 5, some 7,
    "toc", none, false, none, "toc", [], ⟨"none", 18, some 1, none⟩⟩

/-- `candGen` with the cross-validation flag and page distance merged in. -/
def candSel : ExtractionResult :=
  { candGen with
    quality_flags := candGen.quality_flags ++ ["FLAG_TOC_MISMATCH"],
    quality_detail :=
      { candGen.quality_detail with
        toc_body_page_diff := some (pageDiff candToc candGen) } }

lemma candBefore_gen_toc : candBefore candGen candToc = true := by
  simp only [candBefore, candKey, keyLt, candGen, candToc, decide_eq_true_eq]
  norm_num

lemma candBefore_gen_tocNear : candBefore candGen candTocNear = true := by
  simp only [candBefore, candKey, keyLt, candGen, candTocNear, decide_eq_true_eq]
  norm_num

lemma sSort_toc_gen : sSort candBefore [candToc, candGen] = [candGen, candToc] := by
  show sInsert candBefore candGen (sInsert candBefore candToc []) = _
  rw [show sInsert candBefore candToc [] = [candToc] from rfl]
  unfold sInsert
  rw [candBefore_gen_toc]
  simp

lemma sSort_tocNear_gen :
    sSort candBefore [candTocNear, candGen] = [candGen, candTocNear] := by
  show sInsert candBefore candGen (sInsert candBefore candTocNear []) = _
  rw [show sInsert candBefore candTocNear [] = [candTocNear] from rfl]
  unfold sInsert
  rw [candBefore_gen_tocNear]
  simp

lemma select_toc_gen : select_best_candidate [candToc, candGen] = some candSel := by
  unfold select_best_candidate
  rw [if_neg (by simp), sSort_toc_gen]
  rw [show List.find? (fun c => c.used_rule_type == "toc") [candToc, candGen]
    = some candToc from rfl]
  rw [show List.find? (fun c => c.used_rule_type == "generic") [candToc, candGen]
    = some candGen from rfl]
  show selectRanked (some candToc) (some candGen) [candGen, candToc] = some candSel
  simp only [selectRanked]
  rw [if_pos (by decide : 2 < pageDiff candToc candGen)]
  rw [if_neg (show ¬(candGen.score ≤ 2/5) by norm_num [candGen])]
  rw [if_neg (by simp : ¬(["FLAG_TOC_MISMATCH"] = ([] : List String)))]
  rfl

lemma select_tocNear_gen :
    select_best_candidate [candTocNear, candGen] = some candGen := by
  unfold select_best_candidate
  rw [if_neg (by simp), sSort_tocNear_gen]
  rw [show List.find? (fun c => c.used_rule_type == "toc") [candTocNear, candGen]
    = some candTocNear from rfl]
  rw [show List.find? (fun c => c.used_rule_type == "generic") [candTocNear, candGen]
    = some candGen from rfl]
  show selectRanked (some candTocNear) (some candGen) [candGen, candTocNear]
    = some candGen
  simp only [selectRanked]
  rw [if_neg (by decide : ¬(2 < pageDiff candTocNear candGen))]
  rw [if_neg (show ¬(candGen.score ≤ 2/5) by norm_num [candGen])]
  rw [if_pos rfl]

/-- Witness for C9: with a `toc` candidate at page 10 and a winning
`generic` candidate at page 0 (distance 10 > 2) the winner carries the
extra flag and the recorded distance; with the `toc` candidate at page 1
(distance 1 ≤ 2) the winner is returned unchanged. -/
theorem toc_mismatch_flag_spec_witness :
    select_best_candidate [candToc, candGen] = some candSel ∧
    candSel.quality_flags = candGen.quality_flags ++ ["FLAG_TOC_MISMATCH"] ∧
    candSel.quality_detail.toc_body_page_diff = some (pageDiff candToc candGen) ∧
    sameCore candSel candGen ∧
    select_best_candidate [candTocNear, candGen] = some candGen := by
  have happ := (toc_mismatch_flag_spec [candToc, candGen] candGen candSel
    (by rw [sSort_toc_gen]; rfl) select_toc_gen).1 candToc candGen rfl rfl
  obtain ⟨h1, h2, h3⟩ := happ.1 (by decide)
  exact ⟨select_toc_gen, h1, h2, h3, select_tocNear_gen⟩

/-! ### Claim C4: zero-page input -/

/-- Counterexample to C4 as stated: on a page list with zero pages the
extractor does not fail with an input-validation error — the Python
function raises nothing on this path (its own test asserts `None`), so the
embedding has no error channel — and it returns the very same ordinary
no-candidate value `none` that a legitimately unextractable one-page
document produces. -/
theorem extract_zero_pages_counterexample :
    extract_mda_iterative [] none "none" 15 120000 none none = none ∧
    extract_mda_iterative ["hello world"] none "none" 15 120000 none none = none ∧
    extract_mda_iterative [] none "none" 15 120000 none none
      = extract_mda_iterative ["hello world"] none "none" 15 120000 none none := by
  refine ⟨rfl, ?_, ?_⟩
  · decide
  · decide

/-- C4 (amended): when given a page list with zero pages, the extractor
returns `None` immediately — no strategy can produce a candidate and the
empty candidate set is rejected — the same no-result outcome as an
unextractable document, with no input-validation error raised. -/
theorem extract_mda_iterative_empty_pages (pn : Option (List (Option Nat)))
    (pbk : String) (mp mc : Nat) (csp cep : Option String) :
    extract_mda_iterative [] pn pbk mp mc csp cep = none := by
  cases csp with
  | none => rfl
  | some s =>
    by_cases hs : s = ""
    · subst hs
      rfl
    · simp only [extract_mda_iterative]
      rw [if_neg hs]
      rfl

/-! ### `llm/client.py`: multi-provider completion with circuit breaking -/

/-- `LLMResponse` from `llm/providers/base.py` (the `usage` dict is held as
its two token counters; the raw payload is an omitted diagnostic). -/
structure LLMResponse where
  content : String
  model : String
  provider : String
  prompt_tokens : Nat
  completion_tokens : Nat
  latency_ms : Nat
deriving DecidableEq, Repr

/-- One provider adapter as `LLMClient` observes it in a single call:
`is_available()` and the outcome of one `complete(...)` invocation, an
exception being modelled as its message. -/
structure Provider where
  is_available : Bool
  result : Except String LLMResponse
deriving Repr

/-- The mutable state of one `LLMClient`: the fallback order, the enabled
provider dict, and the per-provider failure counts and breaker flags
(`_failure_threshold = 5`). -/
structure ClientState where
  fallback_order : List String
  providers : List (String × Provider)
  failure_counts : String → Nat
  circuit_broken : String → Bool

/-- `self._providers[name]` (with the `name in self._providers` test). -/
def lookupProvider (st : ClientState) (name : String) : Option Provider :=
  (st.providers.find? (fun p => p.1 == name)).map Prod.snd

/-- `get_available_providers()`: enabled, `is_available()`, and not
circuit-broken, in fallback order. -/
def get_available_providers (st : ClientState) : List String :=
  st.fallback_order.filter (fun name =>
    match lookupProvider st name with
    | none => false
    | some p => p.is_available && !(st.circuit_broken name))

/-- `_record_success(provider)`: reset the failure count to 0. -/
def record_success (st : ClientState) (provider : String) : ClientState :=
  { st with failure_counts := fun n => if n = provider then 0 else st.failure_counts n }

/-- `_record_failure(provider)`: increment the count; at the threshold (5)
open the breaker. -/
def record_failure (st : ClientState) (provider : String) : ClientState :=
  let count := st.failure_counts provider + 1
  { st with
    failure_counts := fun n => if n = provider then count else st.failure_counts n,
    circuit_broken :=
      if 5 ≤ count then (fun n => if n = provider then true else st.circuit_broken n)
      else st.circuit_broken }

/-- `reset_circuit_breaker(provider=None)`. -/
def reset_circuit_breaker (st : ClientState) (provider : Option String) : ClientState :=
  match provider with
  | some p =>
    { st with
      circuit_broken := fun n => if n = p then false else st.circuit_broken n,
      failure_counts := fun n => if n = p then 0 else st.failure_counts n }
  | none =>
    { st with circuit_broken := fun _ => false, failure_counts := fun _ => 0 }

/-- `LLMAllProvidersFailedError(errors)`: the aggregate error carrying every
tried provider's exception. -/
inductive LLMError where
  | allProvidersFailed : List (String × String) → LLMError
deriving DecidableEq, Repr

/-- The `for name in providers_to_try` loop of `LLMClient.complete`:
skip unknown or unavailable providers; return on the first success
(recording it); on an exception record the failure, collect the error and —
unless `retry_on_failure` is false — continue; when the loop ends, raise
the aggregate error. -/
def completeLoop (retry_on_failure : Bool) :
    List String → ClientState → List (String × String) →
    Except LLMError LLMResponse × ClientState
  | [], st, errors => (.error (.allProvidersFailed errors), st)
  | name :: rest, st, errors =>
    match lookupProvider st name with
    | none => completeLoop retry_on_failure rest st errors
    | some p =>
      if !p.is_available then completeLoop retry_on_failure rest st errors
      else
        match p.result with
        | .ok response => (.ok response, record_success st name)
        | .error e =>
          let st' := record_failure st name
          let errors' := errors ++ [(name, e)]
          if retry_on_failure then completeLoop retry_on_failure rest st' errors'
          else (.error (.allProvidersFailed errors'), st')

/-- `LLMClient.complete(...)`: a pinned provider is tried alone, otherwise
the available providers in priority order; an empty try list raises the
aggregate error with the "no available provider" cause. -/
def complete (st : ClientState) (provider : Option String := none)
    (retry_on_failure : Bool := true) :
    Except LLMError LLMResponse × ClientState :=
  let providers_to_try :=
    match provider with
    | some p => [p]
    | none => get_available_providers st
  if providers_to_try = [] then
    (.error (.allProvidersFailed [("all", "没有可用的 LLM 提供商")]), st)
  else completeLoop retry_on_failure providers_to_try st []

/-! ### Claim C5: provider fallback -/

lemma lookupProvider_record_failure (st : ClientState) (m n : String) :
    lookupProvider (record_failure st m) n = lookupProvider st n := rfl

lemma completeLoop_skip_unknown (retry : Bool) (n : String) (rest : List String)
    (st : ClientState) (errors : List (String × String))
    (h : lookupProvider st n = none) :
    completeLoop retry (n :: rest) st errors = completeLoop retry rest st errors := by
  show (match lookupProvider st n with
    | none => completeLoop retry rest st errors
    | some p =>
      if !p.is_available then completeLoop retry rest st errors
      else
        match p.result with
        | .ok response => ((.ok response : Except LLMError LLMResponse), record_success st n)
        | .error e =>
          let st2 := record_failure st n
          let errors2 := errors ++ [(n, e)]
          if retry then completeLoop retry rest st2 errors2
          else (.error (.allProvidersFailed errors2), st2))
    = completeLoop retry rest st errors
  rw [h]

lemma completeLoop_skip_unavailable (retry : Bool) (n : String) (rest : List String)
    (st : ClientState) (errors : List (String × String)) (p : Provider)
    (h1 : lookupProvider st n = some p) (h2 : p.is_available = false) :
    completeLoop retry (n :: rest) st errors = completeLoop retry rest st errors := by
  show (match lookupProvider st n with
    | none => completeLoop retry rest st errors
    | some p =>
      if !p.is_available then completeLoop retry rest st errors
      else
        match p.result with
        | .ok response => ((.ok response : Except LLMError LLMResponse), record_success st n)
        | .error e =>
          let st2 := record_failure st n
          let errors2 := errors ++ [(n, e)]
          if retry then completeLoop retry rest st2 errors2
          else (.error (.allProvidersFailed errors2), st2))
    = completeLoop retry rest st errors
  rw [h1]
  show (if !p.is_available then completeLoop retry rest st errors
    else
      match p.result with
      | .ok response => ((.ok response : Except LLMError LLMResponse), record_success st n)
      | .error e =>
        let st2 := record_failure st n
        let errors2 := errors ++ [(n, e)]
        if retry then completeLoop retry rest st2 errors2
        else (.error (.allProvidersFailed errors2), st2))
    = completeLoop retry rest st errors
  rw [h2]
  rfl

lemma completeLoop_success (retry : Bool) (n : String) (rest : List String)
    (st : ClientState) (errors : List (String × String)) (p : Provider)
    (resp : LLMResponse)
    (h1 : lookupProvider st n = some p) (h2 : p.is_available = true)
    (h3 : p.result = .ok resp) :
    completeLoop retry (n :: rest) st errors = (.ok resp, record_success st n) := by
  show (match lookupProvider st n with
    | none => completeLoop retry rest st errors
    | some p =>
      if !p.is_available then completeLoop retry rest st errors
      else
        match p.result with
        | .ok response => ((.ok response : Except LLMError LLMResponse), record_success st n)
        | .error e =>
          let st2 := record_failure st n
          let errors2 := errors ++ [(n, e)]
          if retry then completeLoop retry rest st2 errors2
          else (.error (.allProvidersFailed errors2), st2))
    = ((.ok resp : Except LLMError LLMResponse), record_success st n)
  rw [h1]
  show (if !p.is_available then completeLoop retry rest st errors
    else
      match p.result with
      | .ok response => ((.ok response : Except LLMError LLMResponse), record_success st n)
      | .error e =>
        let st2 := record_failure st n
        let errors2 := errors ++ [(n, e)]
        if retry then completeLoop retry rest st2 errors2
        else (.error (.allProvidersFailed errors2), st2))
    = ((.ok resp : Except LLMError LLMResponse), record_success st n)
  rw [h2, h3]
  rfl

lemma completeLoop_failure_continue (n : String) (rest : List String)
    (st : ClientState) (errors : List (String × String)) (p : Provider)
    (e : String)
    (h1 : lookupProvider st n = some p) (h2 : p.is_available = true)
    (h3 : p.result = .error e) :
    completeLoop true (n :: rest) st errors
      = completeLoop true rest (record_failure st n) (errors ++ [(n, e)]) := by
  show (match lookupProvider st n with
    | none => completeLoop true rest st errors
    | some p =>
      if !p.is_available then completeLoop true rest st errors
      else
        match p.result with
        | .ok response => ((.ok response : Except LLMError LLMResponse), record_success st n)
        | .error e =>
          let st2 := record_failure st n
          let errors2 := errors ++ [(n, e)]
          if true then completeLoop true rest st2 errors2
          else (.error (.allProvidersFailed errors2), st2))
    = completeLoop true rest (record_failure st n) (errors ++ [(n, e)])
  rw [h1]
  show (if !p.is_available then completeLoop true rest st errors
    else
      match p.result with
      | .ok response => ((.ok response : Except LLMError LLMResponse), record_success st n)
      | .error e =>
        let st2 := record_failure st n
        let errors2 := errors ++ [(n, e)]
        if true then completeLoop true rest st2 errors2
        else (.error (.allProvidersFailed errors2), st2))
    = completeLoop true rest (record_failure st n) (errors ++ [(n, e)])
  rw [h2, h3]
  rfl

lemma completeLoop_failure_stop (n : String) (rest : List String)
    (st : ClientState) (errors : List (String × String)) (p : Provider)
    (e : String)
    (h1 : lookupProvider st n = some p) (h2 : p.is_available = true)
    (h3 : p.result = .error e) :
    completeLoop false (n :: rest) st errors
      = (.error (.allProvidersFailed (errors ++ [(n, e)])), record_failure st n) := by
  show (match lookupProvider st n with
    | none => completeLoop false rest st errors
    | some p =>
      if !p.is_available then completeLoop false rest st errors
      else
        match p.result with
        | .ok response => ((.ok response : Except LLMError LLMResponse), record_success st n)
        | .error e =>
          let st2 := record_failure st n
          let errors2 := errors ++ [(n, e)]
          if false then completeLoop false rest st2 errors2
          else (.error (.allProvidersFailed errors2), st2))
    = ((.error (.allProvidersFailed (errors ++ [(n, e)])) : Except LLMError LLMResponse), record_failure st n)
  rw [h1]
  show (if !p.is_available then completeLoop false rest st errors
    else
      match p.result with
      | .ok response => ((.ok response : Except LLMError LLMResponse), record_success st n)
      | .error e =>
        let st2 := record_failure st n
        let errors2 := errors ++ [(n, e)]
        if false then completeLoop false rest st2 errors2
        else (.error (.allProvidersFailed errors2), st2))
    = ((.error (.allProvidersFailed (errors ++ [(n, e)])) : Except LLMError LLMResponse), record_failure st n)
  rw [h2, h3]
  rfl

lemma completeLoop_all_fail (names : List String) :
    ∀ (st : ClientState) (errors : List (String × String)),
    (∀ n ∈ names, ∃ p e, lookupProvider st n = some p ∧ p.is_available = true ∧
      p.result = Except.error e) →
    ∃ errs' st', completeLoop true names st errors
        = (.error (.allProvidersFailed (errors ++ errs')), st') ∧
      ∀ n ∈ names, ∃ e, (n, e) ∈ errs' := by
  induction names with
  | nil =>
    intro st errors _
    exact ⟨[], st, by simp [completeLoop], by simp⟩
  | cons n rest ih =>
    intro st errors h
    obtain ⟨p, e, hl, ha, he⟩ := h n (List.mem_cons_self _ _)
    obtain ⟨errs', st', heq, hmem⟩ := ih (record_failure st n) (errors ++ [(n, e)])
      (fun m hm => h m (List.mem_cons_of_mem _ hm))
    refine ⟨(n, e) :: errs', st', ?_, ?_⟩
    · rw [completeLoop_failure_continue n rest st errors p e hl ha he, heq]
      simp
    · intro m hm
      rcases List.mem_cons.mp hm with rfl | hm
      · exact ⟨e, List.mem_cons_self _ _⟩
      · obtain ⟨e', he'⟩ := hmem m hm
        exact ⟨e', List.mem_cons_of_mem _ he'⟩

/-- C5: without a pinned provider, `complete` tries providers in priority
order, skipping unknown or unavailable ones; on a provider exception it
records that provider's failure and — when `retry_on_failure` — continues
to the next provider, otherwise stops with the aggregate error; with the
first provider always throwing and the second succeeding, `complete`
returns the second provider's response and the first provider's failure
counter increments by exactly 1; and when every tried provider fails it
raises an aggregate error carrying an exception for every tried
provider. -/
theorem llm_complete_fallback_spec :
    (∀ retry n rest st errors, lookupProvider st n = none →
      completeLoop retry (n :: rest) st errors = completeLoop retry rest st errors) ∧
    (∀ retry n rest st errors p, lookupProvider st n = some p →
      p.is_available = false →
      completeLoop retry (n :: rest) st errors = completeLoop retry rest st errors) ∧
    (∀ n rest st errors p e, lookupProvider st n = some p → p.is_available = true →
      p.result = Except.error e →
      completeLoop true (n :: rest) st errors
        = completeLoop true rest (record_failure st n) (errors ++ [(n, e)])) ∧
    (∀ n rest st errors p e, lookupProvider st n = some p → p.is_available = true →
      p.result = Except.error e →
      completeLoop false (n :: rest) st errors
        = (.error (.allProvidersFailed (errors ++ [(n, e)])), record_failure st n)) ∧
    (∀ st n1 n2 p1 p2 e resp, n1 ≠ n2 →
      st.fallback_order = [n1, n2] →
      lookupProvider st n1 = some p1 → p1.is_available = true →
      p1.result = Except.error e →
      lookupProvider st n2 = some p2 → p2.is_available = true →
      p2.result = Except.ok resp →
      st.circuit_broken n1 = false → st.circuit_broken n2 = false →
      (complete st none true).1 = .ok resp ∧
      (complete st none true).2.failure_counts n1 = st.failure_counts n1 + 1) ∧
    (∀ names st errors,
      (∀ n ∈ names, ∃ p e, lookupProvider st n = some p ∧ p.is_available = true ∧
        p.result = Except.error e) →
      ∃ errs' st', completeLoop true names st errors
          = (.error (.allProvidersFailed (errors ++ errs')), st') ∧
        ∀ n ∈ names, ∃ e, (n, e) ∈ errs') := by
  refine ⟨completeLoop_skip_unknown,
    fun retry n rest st errors p h1 h2 =>
      completeLoop_skip_unavailable retry n rest st errors p h1 h2,
    fun n rest st errors p e h1 h2 h3 =>
      completeLoop_failure_continue n rest st errors p e h1 h2 h3,
    fun n rest st errors p e h1 h2 h3 =>
      completeLoop_failure_stop n rest st errors p e h1 h2 h3,
    ?_, completeLoop_all_fail⟩
  intro st n1 n2 p1 p2 e resp hne horder hl1 ha1 hr1 hl2 ha2 hr2 hb1 hb2
  have havail : get_available_providers st = [n1, n2] := by
    unfold get_available_providers
    rw [horder]
    simp [List.filter, hl1, hl2, ha1, ha2, hb1, hb2]
  have hloop : complete st none true = completeLoop true [n1, n2] st [] := by
    unfold complete
    rw [havail]
    rfl
  have hl2' : lookupProvider (record_failure st n1) n2 = some p2 := hl2
  have hrun : completeLoop true [n1, n2] st []
      = (.ok resp, record_success (record_failure st n1) n2) := by
    rw [completeLoop_failure_continue n1 [n2] st [] p1 e hl1 ha1 hr1]
    exact completeLoop_success true n2 [] (record_failure st n1) ([] ++ [(n1, e)])
      p2 resp hl2' ha2 hr2
  rw [hloop, hrun]
  refine ⟨rfl, ?_⟩
  show (if n1 = n2 then 0 else (record_failure st n1).failure_counts n1)
    = st.failure_counts n1 + 1
  rw [if_neg hne]
  show (if n1 = n1 then st.failure_counts n1 + 1 else st.failure_counts n1)
    = st.failure_counts n1 + 1
  rw [if_pos rfl]

/-- A concrete response of the succeeding provider. -/
def respB : LLMResponse := ⟨"answer from backup", "m2", "backup", 5, 7, 120⟩

/-- A provider that always throws. -/
def provFail : Provider := ⟨true, .error "boom"⟩

/-- A provider that succeeds. -/
def provOk : Provider := ⟨true, .ok respB⟩

/-- An unavailable provider (no API key). -/
def provOff : Provider := ⟨false, .error "unreachable"⟩

/-- A two-provider client: the first always throwing, the second
succeeding. -/
def demoState : ClientState :=
  { fallback_order := ["primary", "backup"],
    providers := [("primary", provFail), ("backup", provOk)],
    failure_counts := fun _ => 0,
    circuit_broken := fun _ => false }

/-- Witness for C5: on `demoState`, `complete` returns the backup
provider's response with the primary's failure counter at exactly 1; a
single always-failing provider produces the aggregate error carrying its
exception; an unavailable head provider is skipped. -/
theorem llm_complete_fallback_spec_witness :
    (complete demoState none true).1 = .ok respB ∧
    (complete demoState none true).2.failure_counts "primary" = 1 ∧
    completeLoop true ["primary"] demoState []
      = (.error (.allProvidersFailed [("primary", "boom")]),
         record_failure demoState "primary") ∧
    completeLoop true ["off"]
      { demoState with providers := [("off", provOff)] } []
      = (.error (.allProvidersFailed []),
         { demoState with providers := [("off", provOff)] }) := by
  obtain ⟨h1, h2⟩ := llm_complete_fallback_spec.2.2.2.2.1 demoState
    "primary" "backup" provFail provOk "boom" respB
    (by decide) rfl rfl rfl rfl rfl rfl rfl rfl rfl
  refine ⟨h1, by rw [h2]; rfl, ?_, ?_⟩
  · rw [llm_complete_fallback_spec.2.2.1 "primary" [] demoState []
      provFail "boom" rfl rfl rfl]
    rfl
  · rw [llm_complete_fallback_spec.2.1 true "off" []
      { demoState with providers := [("off", provOff)] } [] provOff rfl rfl]
    rfl

/-! ### Claim C6: per-provider circuit breaker -/

/-- C6: each provider's breaker is independent — a recorded failure
increments only that provider's count, reaching 5 consecutive failures
opens that provider's breaker, an open breaker excludes the provider from
the available list until `reset_circuit_breaker`, and a single recorded
success resets that provider's count to 0 without touching the breaker or
any other provider. -/
theorem circuit_breaker_spec :
    (∀ st n, (record_failure st n).failure_counts n = st.failure_counts n + 1) ∧
    (∀ st n, ((record_failure st n).circuit_broken n = true ↔
      (5 ≤ st.failure_counts n + 1 ∨ st.circuit_broken n = true))) ∧
    (∀ st n, st.circuit_broken n = true → n ∉ get_available_providers st) ∧
    (∀ st n, (record_success st n).failure_counts n = 0) ∧
    (∀ st n, (record_success st n).circuit_broken = st.circuit_broken) ∧
    (∀ st n, (reset_circuit_breaker st (some n)).circuit_broken n = false ∧
      (reset_circuit_breaker st (some n)).failure_counts n = 0) ∧
    (∀ st n m, m ≠ n →
      (record_failure st n).failure_counts m = st.failure_counts m ∧
      (record_failure st n).circuit_broken m = st.circuit_broken m ∧
      (record_success st n).failure_counts m = st.failure_counts m) := by
  refine ⟨?_, ?_, ?_, ?_, ?_, ?_, ?_⟩
  · intro st n
    show (if n = n then st.failure_counts n + 1 else st.failure_counts n) = _
    rw [if_pos rfl]
  · intro st n
    show (if 5 ≤ st.failure_counts n + 1
        then (fun m => if m = n then true else st.circuit_broken m)
        else st.circuit_broken) n = true ↔ _
    split_ifs with h5
    · simp [h5]
    · simp [h5]
  · intro st n hbroken hmem
    unfold get_available_providers at hmem
    have := List.of_mem_filter hmem
    rcases hl : lookupProvider st n with _ | p
    · rw [hl] at this
      cases this
    · rw [hl] at this
      rw [hbroken] at this
      simp at this
  · intro st n
    show (if n = n then 0 else st.failure_counts n) = 0
    rw [if_pos rfl]
  · intro st n
    rfl
  · intro st n
    exact ⟨by show (if n = n then false else _) = false; rw [if_pos rfl],
      by show (if n = n then 0 else _) = 0; rw [if_pos rfl]⟩
  · intro st n m hmn
    refine ⟨?_, ?_, ?_⟩
    · show (if m = n then st.failure_counts n + 1 else st.failure_counts m) = _
      rw [if_neg hmn]
    · show (if 5 ≤ st.failure_counts n + 1
          then (fun x => if x = n then true else st.circuit_broken x)
          else st.circuit_broken) m = st.circuit_broken m
      split_ifs with h5
      · show (if m = n then true else st.circuit_broken m) = st.circuit_broken m
        rw [if_neg hmn]
      · rfl
    · show (if m = n then 0 else st.failure_counts m) = _
      rw [if_neg hmn]

/-- A one-provider client whose breaker sits at 4 consecutive failures. -/
def nearTripState : ClientState :=
  { fallback_order := ["backup"],
    providers := [("backup", provOk)],
    failure_counts := fun _ => 4,
    circuit_broken := fun _ => false }

/-- Witness for C6 at concrete states: the 5th failure opens the breaker,
the open breaker hides the provider, a success resets the count, reset
closes the breaker, and an unrelated provider is untouched. -/
theorem circuit_breaker_spec_witness :
    (record_failure nearTripState "backup").failure_counts "backup" = 5 ∧
    (record_failure nearTripState "backup").circuit_broken "backup" = true ∧
    "backup" ∉ get_available_providers (record_failure nearTripState "backup") ∧
    (record_success nearTripState "backup").failure_counts "backup" = 0 ∧
    (reset_circuit_breaker (record_failure nearTripState "backup")
      (some "backup")).circuit_broken "backup" = false ∧
    (record_failure nearTripState "backup").failure_counts "other" = 4 := by
  refine ⟨?_, ?_, ?_, ?_, ?_, ?_⟩
  · rw [circuit_breaker_spec.1 nearTripState "backup"]
    rfl
  · exact (circuit_breaker_spec.2.1 nearTripState "backup").mpr (Or.inl (by decide))
  · exact circuit_breaker_spec.2.2.1 (record_failure nearTripState "backup") "backup"
      ((circuit_breaker_spec.2.1 nearTripState "backup").mpr (Or.inl (by decide)))
  · exact circuit_breaker_spec.2.2.2.1 nearTripState "backup"
  · exact (circuit_breaker_spec.2.2.2.2.2.1
      (record_failure nearTripState "backup") "backup").1
  · exact (circuit_breaker_spec.2.2.2.2.2.2 nearTripState "backup" "other"
      (by decide)).1

/-! ### Claim C10: a pinned provider bypasses the circuit breaker -/

/-- C10: pinning a provider bypasses the circuit breaker — for a provider
whose breaker is open but whose adapter reports `is_available()`, calling
`complete` with that provider still attempts it and returns its response on
success; the open-breaker exclusion only filters the default
priority-order list. -/
theorem pinned_provider_bypasses_breaker (st : ClientState) (n : String)
    (p : Provider) (resp : LLMResponse) (retry : Bool)
    (hl : lookupProvider st n = some p) (ha : p.is_available = true)
    (hres : p.result = .ok resp) (hb : st.circuit_broken n = true) :
    (complete st (some n) retry).1 = .ok resp ∧
    n ∉ get_available_providers st := by
  constructor
  · show ((if [n] = ([] : List String) then
        ((.error (.allProvidersFailed [("all", "没有可用的 LLM 提供商")])
          : Except LLMError LLMResponse), st)
      else completeLoop retry [n] st [])).1 = .ok resp
    rw [if_neg (by simp)]
    rw [completeLoop_success retry n [] st [] p resp hl ha hres]
  · intro hmem
    unfold get_available_providers at hmem
    have hf := List.of_mem_filter hmem
    rcases hl' : lookupProvider st n with _ | p'
    · rw [hl'] at hf
      cases hf
    · rw [hl'] at hf
      rw [hb] at hf
      simp at hf

/-- A client whose only provider has an open breaker but a working
adapter. -/
def brokenButUp : ClientState :=
  { fallback_order := ["backup"],
    providers := [("backup", provOk)],
    failure_counts := fun _ => 5,
    circuit_broken := fun _ => true }

/-- Witness for C10: on `brokenButUp`, pinning `"backup"` still succeeds
while the default path lists no available provider at all. -/
theorem pinned_provider_bypasses_breaker_witness :
    (complete brokenButUp (some "backup") true).1 = .ok respB ∧
    "backup" ∉ get_available_providers brokenButUp ∧
    get_available_providers brokenButUp = [] := by
  obtain ⟨h1, h2⟩ := pinned_provider_bypasses_breaker brokenButUp "backup"
    provOk respB true rfl rfl rfl rfl
  exact ⟨h1, h2, rfl⟩

end AnnualReportMda
